import Mathlib

/-!
Verification development for the vSphere worker delegate
(`pkg/controller/worker/machines.go`): generation of machine deployments and
machine classes from worker pools, zone configs and machine-type facts.

Conventions of the embedding:
* Go maps are modelled as association lists with first-match lookup
  (`lookupS`) and replace-or-append update (`mapSet` / `mapSetS`).
* Go `int`/`int32` replica counts and zone counts are modelled as `Nat`
  (they are non-negative counts); machine-type resource values, which the
  code compares against `0`, are modelled as `Int`.
* Fallible Go functions returning `(..., error)` are modelled with
  `Except String`.
* External collaborators that the delegate merely invokes (secret fetch +
  credential extraction, infrastructure-status decoding, the worker-pool
  hash) are supplied as fields of the environment `WorkerEnv`.
-/

/-- Decimal digit character, mirroring the rendering used by `fmt`'s `%d`
verb for the digits `0`–`9`. -/
def natDigitChar : Nat → Char
  | 0 => '0'
  | 1 => '1'
  | 2 => '2'
  | 3 => '3'
  | 4 => '4'
  | 5 => '5'
  | 6 => '6'
  | 7 => '7'
  | 8 => '8'
  | 9 => '9'
  | _ => '*'

/-- Big-endian decimal digits of a natural number (model of `fmt`'s `%d`);
reference version by well-founded recursion, used in proofs. -/
def natToStringAux (n : Nat) : List Char :=
  if hlt : n < 10 then [natDigitChar n]
  else natToStringAux (n / 10) ++ [natDigitChar (n % 10)]
termination_by n
decreasing_by
  exact Nat.div_lt_self (by omega) (by omega)

/-- Fuel-based (structurally recursive, hence kernel-computable) version of
`natToStringAux`. -/
def natToCharsCore : Nat → Nat → List Char
  | 0, _ => []
  | fuel + 1, n =>
    if n < 10 then [natDigitChar n]
    else natToCharsCore fuel (n / 10) ++ [natDigitChar (n % 10)]

/-- Decimal rendering of a natural number, model of `fmt.Sprintf "%d"`. -/
def natToString (n : Nat) : String :=
  ⟨natToCharsCore (n + 1) n⟩

/-- With enough fuel, `natToCharsCore` computes `natToStringAux`. -/
theorem natToCharsCore_eq (fuel n : Nat) (h : n < fuel) :
    natToCharsCore fuel n = natToStringAux n := by
  induction fuel generalizing n with
  | zero => omega
  | succ f ih =>
    rw [natToCharsCore, natToStringAux]
    by_cases h10 : n < 10
    · simp [h10]
    · simp only [h10, if_false, dif_neg h10]
      rw [ih (n / 10) (by omega)]
      simp

/-- `natToString` agrees with the reference digit list. -/
theorem natToString_eq (n : Nat) : natToString n = ⟨natToStringAux n⟩ := by
  rw [natToString, natToCharsCore_eq (n + 1) n (by omega)]

/-- Decimal rendering of an integer, model of `fmt`'s `%d` on Go ints. -/
def intToString (n : Int) : String :=
  if n < 0 then "-" ++ natToString n.natAbs else natToString n.toNat

deriving instance DecidableEq for Except

/-- First-match lookup in an association list; model of reading a Go map. -/
def lookupS {α : Type} : List (String × α) → String → Option α
  | [], _ => none
  | (k, v) :: rest, key => if k = key then some v else lookupS rest key

/-- Heterogeneous values stored in the untyped machine-class payload
(`map[string]interface{}` in the source). -/
inductive Val where
  | str (s : String)
  | int (n : Int)
  | strList (l : List String)
  | strMap (m : List (String × String))
  | intMap (m : List (String × Int))
deriving DecidableEq, Repr

/-- A machine-class record: the flat field set assembled per (pool, zone). -/
abbrev MachineClass := List (String × Val)

/-- Replace-or-append update of the machine-class payload; model of a Go map
assignment `machineClassSpec[key] = v`. -/
def mapSet : List (String × Val) → String → Val → List (String × Val)
  | [], k, v => [(k, v)]
  | (a, b) :: rest, k, v =>
    if a = k then (k, v) :: rest else (a, b) :: mapSet rest k v

/-- Replace-or-append update of a string-valued map; model of a Go map
assignment `secretMap[k] = v`. -/
def mapSetS : List (String × String) → String → String → List (String × String)
  | [], k, v => [(k, v)]
  | (a, b) :: rest, k, v =>
    if a = k then (k, v) :: rest else (a, b) :: mapSetS rest k v

/-- Model of `resource.Quantity`: the result of `AsInt64` (none when the
conversion reports `!ok`) together with the display string used in error
messages (`Quantity.String()`). -/
structure Quantity where
  asInt64 : Option Int
  display : String
deriving DecidableEq, Repr

/-- Machine-type catalog record (`corev1beta1.MachineType`): name, CPU and
memory quantities, and the optional storage block's `StorageSize`. -/
structure MachineType where
  name : String
  cpu : Quantity
  memory : Quantity
  storage : Option Quantity
deriving DecidableEq, Repr

/-- A region entry of the cloud-profile config, as consumed by
`generateMachineClassSecretData`. -/
structure RegionSpec where
  name : String
  vsphereHost : String
  vsphereInsecureSSL : Bool
deriving DecidableEq, Repr

/-- The machine-controller-manager credentials extracted from the secret
(`credentials.VsphereMCM()`). -/
structure Credentials where
  mcmUsername : String
  mcmPassword : String
deriving DecidableEq, Repr

/-- Per-zone infrastructure facts (`ZoneConfig` of the infrastructure
status). -/
structure ZoneConfig where
  datacenter : String
  hostSystem : String
  resourcePool : String
  computeCluster : String
  datastore : String
  datastoreCluster : String
  switchUUID : String
deriving DecidableEq, Repr

/-- The `VsphereConfig` part of the infrastructure status: region, folder and
the zone-config table keyed by zone name. -/
structure VsphereConfig where
  region : String
  folder : String
  zoneConfigs : List (String × ZoneConfig)
deriving DecidableEq, Repr

/-- The NSX-T part of the infrastructure status; `segmentName` is a Go
pointer (`nil` modelled as `none`). -/
structure NSXTInfraState where
  segmentName : Option String
deriving DecidableEq, Repr

/-- Decoded infrastructure status; the `NSXTInfraState` pointer itself may be
`nil`. -/
structure InfrastructureStatus where
  nsxtInfraState : Option NSXTInfraState
  vsphereConfig : VsphereConfig
deriving DecidableEq, Repr

/-- Mixed absolute-integer-or-percentage bound (`intstr.IntOrString`) for
max-surge / max-unavailable. -/
inductive IntOrString where
  | int (n : Nat)
  | percent (p : Nat)
deriving DecidableEq, Repr

/-- A worker pool of the worker specification. -/
structure WorkerPool where
  name : String
  machineTypeName : String
  machineImageName : String
  machineImageVersion : String
  zones : List String
  minimum : Nat
  maximum : Nat
  maxSurge : IntOrString
  maxUnavailable : IntOrString
  labels : List (String × String)
  annotations : List (String × String)
  taints : List String
  userData : String
deriving DecidableEq, Repr

/-- A referenced machine image (name, version, resolved path and guest id). -/
structure MachineImage where
  name : String
  version : String
  path : String
  guestID : String
deriving DecidableEq, Repr

/-- One generated machine deployment (per pool and zone). -/
structure MachineDeployment where
  name : String
  className : String
  secretName : String
  minimum : Nat
  maximum : Nat
  maxSurge : Nat
  maxUnavailable : Nat
  labels : List (String × String)
  annotations : List (String × String)
  taints : List String
deriving DecidableEq, Repr

/-- The environment a `workerDelegate` works in: the worker spec fields read
by `generateMachineConfig`, plus the external collaborators (credential
fetch, infrastructure-status decoding, worker-pool hash, machine-image
resolution table) supplied as data. -/
structure WorkerEnv where
  namespace_ : String
  sshPublicKey : String
  pools : List WorkerPool
  shootRegion : String
  cloudProfileRegions : List RegionSpec
  machineTypes : List MachineType
  credentialsResult : Except String Credentials
  infrastructureStatusResult : Except String InfrastructureStatus
  poolHash : WorkerPool → Except String String
  machineImageTable : List ((String × String) × (String × String))

/-- Modelled from the spec: the secret-data key for the vSphere host
(`vsphere.Host`, defined outside `src/`); the concrete key strings are a
closed, enumerated set that does not contain `cloudConfig`. -/
def hostKey : String := "host"

/-- Modelled from the spec: the secret-data key for the vSphere username
(`vsphere.Username`, defined outside `src/`). -/
def usernameKey : String := "username"

/-- Modelled from the spec: the secret-data key for the vSphere password
(`vsphere.Password`, defined outside `src/`). -/
def passwordKey : String := "password"

/-- Modelled from the spec: the secret-data key for the insecure-SSL flag
(`vsphere.InsecureSSL`, defined outside `src/`). -/
def insecureSSLKey : String := "insecureSSL"

/-- Model of `strconv.FormatBool`. -/
def formatBool (b : Bool) : String :=
  if b then "true" else "false"

/-- Modelled from the spec: `helper.FindRegion` (outside `src/`) finds the
first region entry of the cloud-profile config whose name matches the shoot's
region, returning `nil` (here `none`) when absent. -/
def findRegion (name : String) : List RegionSpec → Option RegionSpec
  | [] => none
  | r :: rest => if r.name = name then some r else findRegion name rest

/-- Translation of `workerDelegate.generateMachineClassSecretData`: fetch and
extract credentials (external, the combined result is
`WorkerEnv.credentialsResult`), look up the shoot's region in the
cloud-profile config, and assemble the four credential entries. -/
def generateMachineClassSecretData (env : WorkerEnv) :
    Except String (List (String × String)) :=
  match env.credentialsResult with
  | .error e => .error e
  | .ok credentials =>
    match findRegion env.shootRegion env.cloudProfileRegions with
    | none => .error ("region \"" ++ env.shootRegion ++ "\" not found")
    | some region =>
      .ok [(hostKey, region.vsphereHost),
           (usernameKey, credentials.mcmUsername),
           (passwordKey, credentials.mcmPassword),
           (insecureSSLKey, formatBool region.vsphereInsecureSSL)]

/-- First machine type of the catalog matching the given name; model of the
lookup loop at the top of `extractMachineValues`. -/
def findMachineType : List MachineType → String → Option MachineType
  | [], _ => none
  | mt :: rest, name => if mt.name = name then some mt else findMachineType rest name

/-- Translation of `workerDelegate.extractMachineValues`: resolve a machine
type name to (numCpus, memoryInMB, systemDiskSizeInGB), validating positive
CPU and memory and the 10 GB disk floor (default 20 GB without storage). -/
def extractMachineValues (machineTypes : List MachineType) (machineTypeName : String) :
    Except String (Int × Int × Int) :=
  match findMachineType machineTypes machineTypeName with
  | none => .error ("machine type " ++ machineTypeName ++ " not found in cloud profile spec")
  | some machineType =>
    let numCpus : Int :=
      match machineType.cpu.asInt64 with
      | some n => n
      | none => 0
    if numCpus ≤ 0 then
      .error ("machine type " ++ machineTypeName ++ " has invalid CPU value "
        ++ machineType.cpu.display)
    else
      let memoryInMB : Int :=
        match machineType.memory.asInt64 with
        | some n => Int.tdiv n (1024 * 1024)
        | none => 0
      if memoryInMB ≤ 0 then
        .error ("machine type " ++ machineTypeName ++ " has invalid Memory value "
          ++ machineType.cpu.display)
      else
        match machineType.storage with
        | none => .ok (numCpus, memoryInMB, 20)
        | some storageSize =>
          match storageSize.asInt64 with
          | none =>
            .error ("machine type " ++ machineTypeName
              ++ " has invalid storage size value " ++ storageSize.display)
          | some n =>
            let systemDiskSizeInGB : Int := Int.tdiv n (1024 * 1024 * 1024)
            if systemDiskSizeInGB < 10 then
              .error ("machine type " ++ machineTypeName
                ++ " has invalid storage size value "
                ++ intToString systemDiskSizeInGB ++ " GB")
            else .ok (numCpus, memoryInMB, systemDiskSizeInGB)

/-- Modelled from the spec: `distributeInteger` (the external
`worker.DistributeOverZones`, outside `src/`) splits `total` as evenly as
possible over `zoneCount` zones, the first `total mod zoneCount` zones (by
index) receiving one extra unit. -/
def DistributeOverZones (zoneIndex total zoneCount : Nat) : Nat :=
  total / zoneCount + (if zoneIndex < total % zoneCount then 1 else 0)

/-- Modelled from the spec: resolving a percentage against an integer base
with round-up rounding (Kubernetes rolling-update semantics). -/
def resolvePercent (p base : Nat) : Nat :=
  (base * p + 99) / 100

/-- Modelled from the spec: `distributeIntOrPercent` (the external
`worker.DistributePositiveIntOrPercent`, outside `src/`): an absolute integer
is distributed directly; a percentage is first resolved against
`totalForPercentBase` (round up) and the resolved integer distributed. -/
def DistributePositiveIntOrPercent (zoneIndex : Nat) (v : IntOrString)
    (zoneCount totalForPercentBase : Nat) : Nat :=
  match v with
  | .int n => DistributeOverZones zoneIndex n zoneCount
  | .percent p => DistributeOverZones zoneIndex (resolvePercent p totalForPercentBase) zoneCount

/-- Lookup of a (name, version) pair in the machine-image resolution table. -/
def lookupImage : List ((String × String) × (String × String)) → String → String →
    Option (String × String)
  | [], _, _ => none
  | ((n, v), pg) :: rest, nm, ver =>
    if n = nm ∧ v = ver then some pg else lookupImage rest nm ver

/-- Modelled from the spec: `findMachineImage` (outside `src/`) resolves a
machine image (name, version) to (path, guestID), `NotFound` when absent. -/
def findMachineImage (env : WorkerEnv) (name version : String) :
    Except String (String × String) :=
  match lookupImage env.machineImageTable name version with
  | some pg => .ok pg
  | none =>
    .error ("could not find machine image for " ++ name ++ "/" ++ version)

/-- Modelled from the spec: `appendMachineImage` (outside `src/`)
deduplicates the accumulated image list by (name, version), keeping the
first-seen record. -/
def appendMachineImage (images : List MachineImage) (img : MachineImage) :
    List MachineImage :=
  if images.any (fun mi => mi.name == img.name && mi.version == img.version)
  then images
  else images ++ [img]

/-- Context shared by the whole pool loop of `generateMachineConfig`: the
environment, the decoded infrastructure status, the machine-class secret
data, and the dereferenced NSX-T segment name. -/
structure PoolCtx where
  env : WorkerEnv
  infra : InfrastructureStatus
  secretData : List (String × String)
  segmentName : String

/-- Per-pool facts resolved once before the zone loop: the worker-pool hash,
the resolved machine-image path and guest id, and the machine-type values. -/
structure PoolFacts where
  workerPoolHash : String
  machineImagePath : String
  machineImageGuestID : String
  numCpus : Int
  memoryInMB : Int
  systemDiskSizeInGB : Int

/-- Deployment name `<namespace>-<poolName>-z<zoneIndex+1>`
(`fmt.Sprintf("%s-%s-z%d", ...)` with the 1-based index). -/
def mkDeploymentName (ns poolName : String) (zoneIndex : Nat) : String :=
  ns ++ "-" ++ poolName ++ "-z" ++ natToString (zoneIndex + 1)

/-- Class name `<deploymentName>-<workerPoolHash>`. -/
def mkClassName (ns poolName : String) (zoneIndex : Nat) (hash : String) : String :=
  mkDeploymentName ns poolName zoneIndex ++ "-" ++ hash

/-- The machine-deployment record appended for one (pool, zone) pair
(lines 184–195 of `machines.go`). -/
def mkDeployment (ns : String) (pool : WorkerPool) (hash : String)
    (zoneIdx zoneLen : Nat) : MachineDeployment :=
  { name := mkDeploymentName ns pool.name zoneIdx
    className := mkClassName ns pool.name zoneIdx hash
    secretName := mkClassName ns pool.name zoneIdx hash
    minimum := DistributeOverZones zoneIdx pool.minimum zoneLen
    maximum := DistributeOverZones zoneIdx pool.maximum zoneLen
    maxSurge := DistributePositiveIntOrPercent zoneIdx pool.maxSurge zoneLen pool.maximum
    maxUnavailable := DistributePositiveIntOrPercent zoneIdx pool.maxUnavailable zoneLen pool.minimum
    labels := pool.labels
    annotations := pool.annotations
    taints := pool.taints }

/-- The mandatory fields of `machineClassSpec` as first assembled
(lines 146–164 of `machines.go`); the embedded secret map initially holds
only the `cloudConfig` user-data entry. -/
def baseClassSpec (ctx : PoolCtx) (pool : WorkerPool) (f : PoolFacts)
    (zoneConfig : ZoneConfig) : MachineClass :=
  [("region", .str ctx.infra.vsphereConfig.region),
   ("sshKeys", .strList [ctx.env.sshPublicKey]),
   ("datacenter", .str zoneConfig.datacenter),
   ("network", .str ctx.segmentName),
   ("templateVM", .str f.machineImagePath),
   ("numCpus", .int f.numCpus),
   ("memory", .int f.memoryInMB),
   ("systemDisk", .intMap [("size", f.systemDiskSizeInGB)]),
   ("tags", .strMap [("mcm.gardener.cloud/cluster", ctx.env.namespace_),
                     ("mcm.gardener.cloud/role", "node")]),
   ("secret", .strMap [("cloudConfig", pool.userData)])]

/-- `addOptional`: set the key only when the value is non-empty. -/
def addOptional (m : MachineClass) (key value : String) : MachineClass :=
  if value = "" then m else mapSet m key (.str value)

/-- The eight `addOptional` calls of `machines.go` (lines 170–177), in source
order. -/
def addOptionals (m : MachineClass) (ctx : PoolCtx) (f : PoolFacts)
    (zoneConfig : ZoneConfig) : MachineClass :=
  addOptional (addOptional (addOptional (addOptional (addOptional (addOptional
    (addOptional (addOptional m
      "folder" ctx.infra.vsphereConfig.folder)
      "guestId" f.machineImageGuestID)
      "hostSystem" zoneConfig.hostSystem)
      "resourcePool" zoneConfig.resourcePool)
      "computeCluster" zoneConfig.computeCluster)
      "datastore" zoneConfig.datastore)
      "datastoreCluster" zoneConfig.datastoreCluster)
      "switchUuid" zoneConfig.switchUUID

/-- Merging the machine-class secret data into the secret map
(lines 198–201: `for k, v := range machineClassSecretData`). -/
def mergeSecretData (secretMap : List (String × String))
    (data : List (String × String)) : List (String × String) :=
  data.foldl (fun acc kv => mapSetS acc kv.1 kv.2) secretMap

/-- The machine-class record finally appended for one (pool, zone) pair:
mandatory fields, optional fields, the `name` key, and the secret map with
the credential entries merged in. -/
def mkClass (ctx : PoolCtx) (pool : WorkerPool) (f : PoolFacts)
    (zoneIdx : Nat) (zoneConfig : ZoneConfig) : MachineClass :=
  mapSet
    (mapSet (addOptionals (baseClassSpec ctx pool f zoneConfig) ctx f zoneConfig)
      "name" (.str (mkClassName ctx.env.namespace_ pool.name zoneIdx f.workerPoolHash)))
    "secret"
    (.strMap (mergeSecretData [("cloudConfig", pool.userData)] ctx.secretData))

/-- One iteration of the zone loop: look up the zone config (NotFound error
when absent) and produce the deployment and class records. -/
def buildZone (ctx : PoolCtx) (pool : WorkerPool) (f : PoolFacts)
    (zoneLen zoneIdx : Nat) (zone : String) :
    Except String (MachineDeployment × MachineClass) :=
  match lookupS ctx.infra.vsphereConfig.zoneConfigs zone with
  | none => .error ("zoneConfig not found for zone " ++ zone)
  | some zoneConfig =>
    .ok (mkDeployment ctx.env.namespace_ pool f.workerPoolHash zoneIdx zoneLen,
         mkClass ctx pool f zoneIdx zoneConfig)

/-- The zone loop `for zoneIndex, zone := range pool.Zones`, accumulating in
input order and aborting on the first error. -/
def buildZones (ctx : PoolCtx) (pool : WorkerPool) (f : PoolFacts)
    (zoneLen : Nat) : Nat → List String →
    Except String (List (MachineDeployment × MachineClass))
  | _, [] => .ok []
  | zoneIdx, zone :: rest =>
    match buildZone ctx pool f zoneLen zoneIdx zone with
    | .error e => .error e
    | .ok r =>
      match buildZones ctx pool f zoneLen (zoneIdx + 1) rest with
      | .error e => .error e
      | .ok rs => .ok (r :: rs)

/-- The pool loop of `generateMachineConfig`: per pool resolve the hash, the
machine image (appending it deduplicated to the image accumulator) and the
machine-type values, then run the zone loop; any error aborts the whole
generation. -/
def processPools (ctx : PoolCtx) : List WorkerPool → List MachineImage →
    Except String (List MachineDeployment × List MachineClass × List MachineImage)
  | [], images => .ok ([], [], images)
  | pool :: rest, images =>
    match ctx.env.poolHash pool with
    | .error e => .error e
    | .ok workerPoolHash =>
      match findMachineImage ctx.env pool.machineImageName pool.machineImageVersion with
      | .error e => .error e
      | .ok (machineImagePath, machineImageGuestID) =>
        match extractMachineValues ctx.env.machineTypes pool.machineTypeName with
        | .error e => .error e
        | .ok (numCpus, memoryInMB, systemDiskSizeInGB) =>
          match buildZones ctx pool
              ⟨workerPoolHash, machineImagePath, machineImageGuestID,
               numCpus, memoryInMB, systemDiskSizeInGB⟩
              pool.zones.length 0 pool.zones with
          | .error e => .error e
          | .ok zs =>
            match processPools ctx rest
                (appendMachineImage images
                  ⟨pool.machineImageName, pool.machineImageVersion,
                   machineImagePath, machineImageGuestID⟩) with
            | .error e => .error e
            | .ok (ds, cs, imgs) =>
              .ok (zs.map Prod.fst ++ ds, zs.map Prod.snd ++ cs, imgs)

/-- The three accumulators published on success: machine deployments, machine
classes and referenced machine images. -/
structure GenOutput where
  machineDeployments : List MachineDeployment
  machineClasses : List MachineClass
  machineImages : List MachineImage
deriving DecidableEq, Repr

/-- Translation of `workerDelegate.generateMachineConfig`: secret data,
infrastructure status, the segment-name and SSH-key invariants, then the pool
loop; all-or-nothing (any error yields no output at all). -/
def generateMachineConfig (env : WorkerEnv) : Except String GenOutput :=
  match generateMachineClassSecretData env with
  | .error e => .error e
  | .ok machineClassSecretData =>
    match env.infrastructureStatusResult with
    | .error e => .error e
    | .ok infrastructureStatus =>
      match infrastructureStatus.nsxtInfraState with
      | none => .error "SegmentName not set in nsxtInfraState"
      | some st =>
        match st.segmentName with
        | none => .error "SegmentName not set in nsxtInfraState"
        | some segmentName =>
          if env.sshPublicKey.length = 0 then
            .error "missing sshPublicKey for infrastructure"
          else
            match processPools ⟨env, infrastructureStatus, machineClassSecretData, segmentName⟩
                env.pools [] with
            | .error e => .error e
            | .ok (ds, cs, imgs) => .ok ⟨ds, cs, imgs⟩

/-- The mutable delegate instance: the environment plus the three cached
result fields, which are `nil` (`none`) until the first successful
generation. -/
structure WorkerDelegate where
  env : WorkerEnv
  machineDeployments : Option (List MachineDeployment)
  machineClasses : Option (List MachineClass)
  machineImages : Option (List MachineImage)

/-- Running `generateMachineConfig` against the delegate: on success all
three cached fields are assigned (lines 207–209); on error the receiver is
left untouched and the error is returned. Go nil-ness of the assigned slices
is modelled precisely: the `machineDeployments` local starts as the non-nil
empty slice `worker.MachineDeployments{}` (line 94), so that field is always
`some` after success; the `machineClasses` and `machineImages` locals start
as nil slices (lines 95–96) that become non-nil exactly when something is
appended, so those fields stay `none` (Go nil) when the generated list is
empty. -/
def generateMachineConfigRun (w : WorkerDelegate) : WorkerDelegate × Option String :=
  match generateMachineConfig w.env with
  | .error e => (w, some e)
  | .ok out =>
    ({ w with machineDeployments := some out.machineDeployments
              machineClasses := if out.machineClasses.isEmpty then none
                                else some out.machineClasses
              machineImages := if out.machineImages.isEmpty then none
                               else some out.machineImages }, none)

/-- Translation of `workerDelegate.GenerateMachineDeployments`: generate only
when the cached field is still `nil`, then return the cached field. -/
def GenerateMachineDeployments (w : WorkerDelegate) :
    WorkerDelegate × Except String (List MachineDeployment) :=
  if w.machineDeployments.isNone then
    match generateMachineConfigRun w with
    | (w1, some e) => (w1, .error e)
    | (w1, none) => (w1, .ok (w1.machineDeployments.getD []))
  else (w, .ok (w.machineDeployments.getD []))

/-- Translation of `workerDelegate.DeployMachineClasses`: generate only when
the cached field is still `nil`; the value handed to the chart applier is the
cached machine-class list, returned here. -/
def DeployMachineClasses (w : WorkerDelegate) :
    WorkerDelegate × Except String (List MachineClass) :=
  if w.machineClasses.isNone then
    match generateMachineConfigRun w with
    | (w1, some e) => (w1, .error e)
    | (w1, none) => (w1, .ok (w1.machineClasses.getD []))
  else (w, .ok (w.machineClasses.getD []))

/-- Example zone config with some optional fields empty (zone `z1`). -/
def exZC1 : ZoneConfig :=
  ⟨"dc1", "", "rp1", "cc1", "", "", "sw1"⟩

/-- Example zone config with the complementary optional fields empty
(zone `z2`). -/
def exZC2 : ZoneConfig :=
  ⟨"dc2", "hs2", "", "", "ds2", "dsc2", ""⟩

/-- Example machine type: CPU `2`, memory `4Gi`, no storage block. -/
def exMT : MachineType :=
  ⟨"mt1", ⟨some 2, "2"⟩, ⟨some 4294967296, "4Gi"⟩, none⟩

/-- Example machine type with a `5Gi` storage size (below the 10 GB floor). -/
def exMTStorage : MachineType :=
  ⟨"mt2", ⟨some 2, "2"⟩, ⟨some 4294967296, "4Gi"⟩, some ⟨some 5368709120, "5Gi"⟩⟩

/-- Example worker pool spanning zones `z1`, `z2`. -/
def exPool : WorkerPool :=
  { name := "worker1"
    machineTypeName := "mt1"
    machineImageName := "img"
    machineImageVersion := "1.0"
    zones := ["z1", "z2"]
    minimum := 3
    maximum := 6
    maxSurge := .percent 50
    maxUnavailable := .int 1
    labels := [("l", "v")]
    annotations := []
    taints := []
    userData := "userdata-1" }

/-- Example infrastructure status with zone configs for `z1` and `z2`. -/
def exInfra : InfrastructureStatus :=
  ⟨some ⟨some "seg-1"⟩, ⟨"r1", "folder1", [("z1", exZC1), ("z2", exZC2)]⟩⟩

/-- Example delegate environment on which generation succeeds. -/
def exEnv : WorkerEnv :=
  { namespace_ := "shoot-ns"
    sshPublicKey := "ssh-rsa AAA"
    pools := [exPool]
    shootRegion := "r1"
    cloudProfileRegions := [⟨"r1", "vhost.example", false⟩]
    machineTypes := [exMT, exMTStorage]
    credentialsResult := .ok ⟨"mcm-user", "mcm-pass"⟩
    infrastructureStatusResult := .ok exInfra
    poolHash := fun _ => .ok "abc12"
    machineImageTable := [(("img", "1.0"), ("templates/img-1.0", "guest-1"))] }

/-- The successful generation output on `exEnv`. -/
def exOut : GenOutput :=
  (generateMachineConfig exEnv).toOption.getD ⟨[], [], []⟩

example : generateMachineConfig exEnv = .ok exOut := by decide
example : exOut.machineDeployments.length = 2 := by decide
example : (exOut.machineDeployments.map (fun d => d.name)) =
    ["shoot-ns-worker1-z1", "shoot-ns-worker1-z2"] := by decide
example : (exOut.machineDeployments.map (fun d => d.minimum)) = [2, 1] := by decide
example : (exOut.machineDeployments.map (fun d => d.maximum)) = [3, 3] := by decide
example : (exOut.machineDeployments.map (fun d => d.maxSurge)) = [2, 1] := by decide
example : (exOut.machineDeployments.map (fun d => d.maxUnavailable)) = [1, 0] := by decide
example : (exOut.machineClasses.map (fun c => lookupS c "name")) =
    [some (.str "shoot-ns-worker1-z1-abc12"), some (.str "shoot-ns-worker1-z2-abc12")] := by decide
example : (exOut.machineClasses.headD []).length = 16 := by decide
example : lookupS (exOut.machineClasses.headD []) "hostSystem" = none := by decide
example : lookupS (exOut.machineClasses.headD []) "folder" = some (.str "folder1") := by decide
example : lookupS (exOut.machineClasses.headD []) "secret" =
    some (.strMap [("cloudConfig", "userdata-1"), (hostKey, "vhost.example"),
      (usernameKey, "mcm-user"), (passwordKey, "mcm-pass"), (insecureSSLKey, "false")]) := by decide
example : extractMachineValues [exMT, exMTStorage] "mt1" = .ok (2, 4096, 20) := by decide
example : extractMachineValues [exMT, exMTStorage] "mt2" =
    .error "machine type mt2 has invalid storage size value 5 GB" := by decide

/-- For a zone index below `total mod Z` the distributed share is the ceiling
`⌈total/Z⌉`, otherwise the floor `⌊total/Z⌋`. -/
theorem DistributeOverZones_ceil_floor (i t Z : Nat) (hZ : 0 < Z) :
    DistributeOverZones i t Z =
      if i < t % Z then (t + Z - 1) / Z else t / Z := by
  unfold DistributeOverZones
  by_cases h : i < t % Z
  · simp only [h, if_true]
    have hr1 : 1 ≤ t % Z := by omega
    have hrZ : t % Z < Z := Nat.mod_lt _ hZ
    have hdm := Nat.div_add_mod t Z
    have hmul : Z * (t / Z + 1) = Z * (t / Z) + Z := by ring
    have hsplit : t + Z - 1 = Z * (t / Z + 1) + (t % Z - 1) := by omega
    have hlt : t % Z - 1 < Z := by omega
    rw [hsplit, Nat.mul_add_div hZ, Nat.div_eq_of_lt hlt]
  · simp [h]

/-- Counting the zone indices below a threshold. -/
theorem sum_ite_lt_min (Z r : Nat) :
    (∑ j ∈ Finset.range Z, if j < r then 1 else 0) = min r Z := by
  induction Z with
  | zero => simp
  | succ n ih =>
    rw [Finset.sum_range_succ, ih]
    by_cases h : n < r
    · simp only [h, if_true]
      omega
    · simp only [h, if_false]
      omega

/-- Summing the distributed shares over all zone indices recovers the total
exactly. -/
theorem DistributeOverZones_sum (t Z : Nat) (hZ : 0 < Z) :
    (∑ j ∈ Finset.range Z, DistributeOverZones j t Z) = t := by
  unfold DistributeOverZones
  rw [Finset.sum_add_distrib, Finset.sum_const, Finset.card_range, smul_eq_mul,
    sum_ite_lt_min, Nat.min_eq_left (Nat.le_of_lt (Nat.mod_lt _ hZ))]
  exact Nat.div_add_mod t Z

/-- Lookup after setting a key finds the new value. -/
theorem lookupS_mapSet_self (m : List (String × Val)) (k : String) (v : Val) :
    lookupS (mapSet m k v) k = some v := by
  induction m with
  | nil => simp [mapSet, lookupS]
  | cons hd tl ih =>
    obtain ⟨a, b⟩ := hd
    by_cases h1 : a = k
    · subst h1
      simp [mapSet, lookupS]
    · simp [mapSet, lookupS, h1, ih]

/-- Lookup of a different key is unchanged by setting. -/
theorem lookupS_mapSet_ne (m : List (String × Val)) (k key : String) (v : Val)
    (h : key ≠ k) : lookupS (mapSet m k v) key = lookupS m key := by
  have hk : ¬(k = key) := fun he => h he.symm
  induction m with
  | nil => simp [mapSet, lookupS, hk]
  | cons hd tl ih =>
    obtain ⟨a, b⟩ := hd
    by_cases h1 : a = k
    · subst h1
      simp [mapSet, lookupS, hk]
    · simp [mapSet, lookupS, h1, ih]

/-- String-map version of `lookupS_mapSet_self`. -/
theorem lookupS_mapSetS_self (m : List (String × String)) (k v : String) :
    lookupS (mapSetS m k v) k = some v := by
  induction m with
  | nil => simp [mapSetS, lookupS]
  | cons hd tl ih =>
    obtain ⟨a, b⟩ := hd
    by_cases h1 : a = k
    · subst h1
      simp [mapSetS, lookupS]
    · simp [mapSetS, lookupS, h1, ih]

/-- String-map version of `lookupS_mapSet_ne`. -/
theorem lookupS_mapSetS_ne (m : List (String × String)) (k key v : String)
    (h : key ≠ k) : lookupS (mapSetS m k v) key = lookupS m key := by
  have hk : ¬(k = key) := fun he => h he.symm
  induction m with
  | nil => simp [mapSetS, lookupS, hk]
  | cons hd tl ih =>
    obtain ⟨a, b⟩ := hd
    by_cases h1 : a = k
    · subst h1
      simp [mapSetS, lookupS, hk]
    · simp [mapSetS, lookupS, h1, ih]

/-- Setting a key that is absent from the map appends the new entry. -/
theorem mapSetS_not_mem (m : List (String × String)) (k v : String)
    (h : ∀ p ∈ m, p.1 ≠ k) : mapSetS m k v = m ++ [(k, v)] := by
  induction m with
  | nil => simp [mapSetS]
  | cons hd tl ih =>
    rw [mapSetS]
    have : hd.1 ≠ k := h hd (by simp)
    simp only [this, if_false, List.cons_append, List.cons.injEq, true_and]
    exact ih (fun p hp => h p (by simp [hp]))

/-- `addOptional` with a key different from the looked-up one. -/
theorem lookupS_addOptional_ne (m : MachineClass) (k key value : String)
    (h : key ≠ k) : lookupS (addOptional m k value) key = lookupS m key := by
  unfold addOptional
  by_cases he : value = ""
  · simp [he]
  · simp [he, lookupS_mapSet_ne m k key _ h]

/-- `addOptional` on its own key: present with the given value exactly when
the value is non-empty. -/
theorem lookupS_addOptional_self (m : MachineClass) (k value : String)
    (hnone : lookupS m k = none) :
    lookupS (addOptional m k value) k =
      if value = "" then none else some (.str value) := by
  unfold addOptional
  by_cases he : value = ""
  · simp [he, hnone]
  · simp [he, lookupS_mapSet_self]
/-- A successful generation decomposes into: secret data ok, infrastructure
status ok with a set segment name, non-empty SSH key, and a successful pool
loop producing exactly the published accumulators. -/
theorem generateMachineConfig_ok (env : WorkerEnv) (out : GenOutput)
    (h : generateMachineConfig env = .ok out) :
    ∃ sd infra st seg,
      generateMachineClassSecretData env = .ok sd ∧
      env.infrastructureStatusResult = .ok infra ∧
      infra.nsxtInfraState = some st ∧
      st.segmentName = some seg ∧
      env.sshPublicKey.length ≠ 0 ∧
      processPools ⟨env, infra, sd, seg⟩ env.pools [] =
        .ok (out.machineDeployments, out.machineClasses, out.machineImages) := by
  unfold generateMachineConfig at h
  split at h
  · exact Except.noConfusion h
  next sd hsd =>
  split at h
  · exact Except.noConfusion h
  next infra hinf =>
  split at h
  · exact Except.noConfusion h
  next st hst =>
  split at h
  · exact Except.noConfusion h
  next seg hseg =>
  split at h
  · exact Except.noConfusion h
  next hssh =>
  split at h
  · exact Except.noConfusion h
  next ds cs imgs hpp =>
  injection h with h1
  subst h1
  exact ⟨sd, infra, st, seg, hsd, hinf, hst, hseg, hssh, hpp⟩

/-- Every zone index of a successful zone loop contributes its deployment and
class record (built from the looked-up zone config) to the result list. -/
theorem buildZones_ok_mem (ctx : PoolCtx) (pool : WorkerPool) (f : PoolFacts)
    (zoneLen : Nat) (zones : List String) (k : Nat)
    (zs : List (MachineDeployment × MachineClass))
    (h : buildZones ctx pool f zoneLen k zones = .ok zs)
    (i : Nat) (hi : i < zones.length) :
    ∃ zc, lookupS ctx.infra.vsphereConfig.zoneConfigs zones[i] = some zc ∧
      (mkDeployment ctx.env.namespace_ pool f.workerPoolHash (k + i) zoneLen,
       mkClass ctx pool f (k + i) zc) ∈ zs := by
  induction zones generalizing k zs i with
  | nil => simp at hi
  | cons z rest ih =>
    rw [buildZones] at h
    split at h
    · exact Except.noConfusion h
    next r hz =>
    split at h
    · exact Except.noConfusion h
    next rs hrest =>
    injection h with h1
    subst h1
    cases i with
    | zero =>
      unfold buildZone at hz
      split at hz
      · exact Except.noConfusion hz
      next zc hlk =>
      injection hz with hz1
      refine ⟨zc, by simpa using hlk, ?_⟩
      simp only [Nat.add_zero, List.getElem_cons_zero]
      rw [hz1]
      exact List.mem_cons_self _ _
    | succ j =>
      obtain ⟨zc, hzc, hmem⟩ := ih (k + 1) rs hrest j (by simpa using hi)
      refine ⟨zc, by simpa using hzc, ?_⟩
      have hkj : k + 1 + j = k + (j + 1) := by omega
      rw [hkj] at hmem
      exact List.mem_cons_of_mem _ hmem

/-- Every pool of a successful pool loop has its per-pool facts resolved and
its zone-loop results contained in the accumulated deployment and class
lists. -/
theorem processPools_ok_mem (ctx : PoolCtx) (pools : List WorkerPool)
    (images : List MachineImage)
    (ds : List MachineDeployment) (cs : List MachineClass) (imgs : List MachineImage)
    (h : processPools ctx pools images = .ok (ds, cs, imgs))
    (pool : WorkerPool) (hp : pool ∈ pools) :
    ∃ (f : PoolFacts) (zs : List (MachineDeployment × MachineClass)),
      ctx.env.poolHash pool = .ok f.workerPoolHash ∧
      findMachineImage ctx.env pool.machineImageName pool.machineImageVersion =
        .ok (f.machineImagePath, f.machineImageGuestID) ∧
      extractMachineValues ctx.env.machineTypes pool.machineTypeName =
        .ok (f.numCpus, f.memoryInMB, f.systemDiskSizeInGB) ∧
      buildZones ctx pool f pool.zones.length 0 pool.zones = .ok zs ∧
      ∀ r ∈ zs, r.1 ∈ ds ∧ r.2 ∈ cs := by
  induction pools generalizing images ds cs imgs with
  | nil => simp at hp
  | cons p rest ih =>
    rw [processPools] at h
    split at h
    · exact Except.noConfusion h
    next workerPoolHash hh =>
    split at h
    · exact Except.noConfusion h
    next machineImagePath machineImageGuestID himg =>
    split at h
    · exact Except.noConfusion h
    next numCpus memoryInMB systemDiskSizeInGB hmv =>
    split at h
    · exact Except.noConfusion h
    next zs hbz =>
    split at h
    · exact Except.noConfusion h
    next ds2 cs2 imgs2 hpp =>
    injection h with h1
    simp only [Prod.mk.injEq] at h1
    obtain ⟨hds, hcs, himgs⟩ := h1
    rcases List.mem_cons.mp hp with hpeq | hprest
    · subst hpeq
      refine ⟨⟨workerPoolHash, machineImagePath, machineImageGuestID,
        numCpus, memoryInMB, systemDiskSizeInGB⟩, zs, hh, himg, hmv, hbz, ?_⟩
      intro r hr
      subst hds
      subst hcs
      exact ⟨List.mem_append_left _ (List.mem_map_of_mem _ hr),
             List.mem_append_left _ (List.mem_map_of_mem _ hr)⟩
    · obtain ⟨f, zs2, hf1, hf2, hf3, hf4, hf5⟩ := ih _ ds2 cs2 imgs2 hpp hprest
      refine ⟨f, zs2, hf1, hf2, hf3, hf4, ?_⟩
      intro r hr
      obtain ⟨hr1, hr2⟩ := hf5 r hr
      subst hds
      subst hcs
      exact ⟨List.mem_append_right _ hr1, List.mem_append_right _ hr2⟩

/-- Top-level membership characterization: every (pool, zone index) pair of a
successful generation contributes the deployment and class records built by
`mkDeployment` / `mkClass` from its resolved facts. -/
theorem generateMachineConfig_mem (env : WorkerEnv) (out : GenOutput)
    (h : generateMachineConfig env = .ok out)
    (pool : WorkerPool) (hp : pool ∈ env.pools)
    (i : Nat) (hi : i < pool.zones.length) :
    ∃ sd infra st seg, ∃ (f : PoolFacts) (zc : ZoneConfig),
      generateMachineClassSecretData env = .ok sd ∧
      env.infrastructureStatusResult = .ok infra ∧
      infra.nsxtInfraState = some st ∧
      st.segmentName = some seg ∧
      env.poolHash pool = .ok f.workerPoolHash ∧
      findMachineImage env pool.machineImageName pool.machineImageVersion =
        .ok (f.machineImagePath, f.machineImageGuestID) ∧
      extractMachineValues env.machineTypes pool.machineTypeName =
        .ok (f.numCpus, f.memoryInMB, f.systemDiskSizeInGB) ∧
      lookupS infra.vsphereConfig.zoneConfigs pool.zones[i] = some zc ∧
      mkDeployment env.namespace_ pool f.workerPoolHash i pool.zones.length ∈
        out.machineDeployments ∧
      mkClass ⟨env, infra, sd, seg⟩ pool f i zc ∈ out.machineClasses := by
  obtain ⟨sd, infra, st, seg, hsd, hinf, hst, hseg, hssh, hpp⟩ :=
    generateMachineConfig_ok env out h
  obtain ⟨f, zs, hf1, hf2, hf3, hbz, hmem⟩ :=
    processPools_ok_mem ⟨env, infra, sd, seg⟩ env.pools [] _ _ _ hpp pool hp
  obtain ⟨zc, hzc, hzmem⟩ :=
    buildZones_ok_mem ⟨env, infra, sd, seg⟩ pool f pool.zones.length pool.zones 0 zs hbz i hi
  obtain ⟨hd, hc⟩ := hmem _ hzmem
  refine ⟨sd, infra, st, seg, f, zc, hsd, hinf, hst, hseg, hf1, hf2, hf3, hzc, ?_, ?_⟩
  · simpa using hd
  · simpa using hc

/-- C1: for every pool with zone count Z ≥ 1 and every zero-based zone index
i, the generated machine deployment's Minimum (resp. Maximum) is the even
split of pool.minimum (resp. pool.maximum) over Z zones — the first
(total mod Z) zones receive the ceiling of total/Z, the rest the floor, and
the per-zone values sum exactly to the pool total — and MaxSurge is
distributed resolving any percentage against pool.maximum as the base,
MaxUnavailable against pool.minimum. -/
theorem claim_C1_zone_distribution (env : WorkerEnv) (out : GenOutput)
    (h : generateMachineConfig env = .ok out)
    (pool : WorkerPool) (hp : pool ∈ env.pools)
    (i : Nat) (hi : i < pool.zones.length) :
    ∃ d ∈ out.machineDeployments,
      d.name = mkDeploymentName env.namespace_ pool.name i ∧
      d.minimum = (if i < pool.minimum % pool.zones.length
        then (pool.minimum + pool.zones.length - 1) / pool.zones.length
        else pool.minimum / pool.zones.length) ∧
      d.maximum = (if i < pool.maximum % pool.zones.length
        then (pool.maximum + pool.zones.length - 1) / pool.zones.length
        else pool.maximum / pool.zones.length) ∧
      (∑ j ∈ Finset.range pool.zones.length,
        DistributeOverZones j pool.minimum pool.zones.length) = pool.minimum ∧
      (∑ j ∈ Finset.range pool.zones.length,
        DistributeOverZones j pool.maximum pool.zones.length) = pool.maximum ∧
      d.maxSurge =
        DistributePositiveIntOrPercent i pool.maxSurge pool.zones.length pool.maximum ∧
      (∀ p, pool.maxSurge = .percent p →
        d.maxSurge =
          DistributeOverZones i ((pool.maximum * p + 99) / 100) pool.zones.length) ∧
      d.maxUnavailable =
        DistributePositiveIntOrPercent i pool.maxUnavailable pool.zones.length pool.minimum ∧
      (∀ p, pool.maxUnavailable = .percent p →
        d.maxUnavailable =
          DistributeOverZones i ((pool.minimum * p + 99) / 100) pool.zones.length) := by
  obtain ⟨sd, infra, st, seg, f, zc, h1, h2, h3, h4, h5, h6, h7, h8, hd, hc⟩ :=
    generateMachineConfig_mem env out h pool hp i hi
  have hZ : 0 < pool.zones.length := by omega
  refine ⟨mkDeployment env.namespace_ pool f.workerPoolHash i pool.zones.length, hd,
    rfl, ?_, ?_, DistributeOverZones_sum _ _ hZ, DistributeOverZones_sum _ _ hZ,
    rfl, ?_, rfl, ?_⟩
  · exact DistributeOverZones_ceil_floor i pool.minimum _ hZ
  · exact DistributeOverZones_ceil_floor i pool.maximum _ hZ
  · intro p hps
    simp [mkDeployment, DistributePositiveIntOrPercent, hps, resolvePercent]
  · intro p hpu
    simp [mkDeployment, DistributePositiveIntOrPercent, hpu, resolvePercent]

/-- Witness for C1 at the example environment (pool `worker1`, zone index 0:
minimum 3 over 2 zones gives 2, maximum 6 gives 3, 50% surge of 6 resolves to
3 and distributes to 2). -/
theorem claim_C1_zone_distribution_witness :
    ∃ d ∈ exOut.machineDeployments,
      d.name = mkDeploymentName exEnv.namespace_ exPool.name 0 ∧
      d.minimum = (if 0 < exPool.minimum % exPool.zones.length
        then (exPool.minimum + exPool.zones.length - 1) / exPool.zones.length
        else exPool.minimum / exPool.zones.length) ∧
      d.maximum = (if 0 < exPool.maximum % exPool.zones.length
        then (exPool.maximum + exPool.zones.length - 1) / exPool.zones.length
        else exPool.maximum / exPool.zones.length) ∧
      (∑ j ∈ Finset.range exPool.zones.length,
        DistributeOverZones j exPool.minimum exPool.zones.length) = exPool.minimum ∧
      (∑ j ∈ Finset.range exPool.zones.length,
        DistributeOverZones j exPool.maximum exPool.zones.length) = exPool.maximum ∧
      d.maxSurge =
        DistributePositiveIntOrPercent 0 exPool.maxSurge exPool.zones.length exPool.maximum ∧
      (∀ p, exPool.maxSurge = .percent p →
        d.maxSurge =
          DistributeOverZones 0 ((exPool.maximum * p + 99) / 100) exPool.zones.length) ∧
      d.maxUnavailable =
        DistributePositiveIntOrPercent 0 exPool.maxUnavailable exPool.zones.length exPool.minimum ∧
      (∀ p, exPool.maxUnavailable = .percent p →
        d.maxUnavailable =
          DistributeOverZones 0 ((exPool.minimum * p + 99) / 100) exPool.zones.length) :=
  claim_C1_zone_distribution exEnv exOut rfl exPool (by decide) 0 (by decide)

/-- C2: for every pool and zero-based zone index i, the generated deployment
is named `<namespace>-<poolName>-z<i+1>` (1-based in the visible name), its
class name is `<deploymentName>-<poolConfigHash>`, its secret name equals the
class name, and the machine-class record carries the class name. -/
theorem claim_C2_naming (env : WorkerEnv) (out : GenOutput)
    (h : generateMachineConfig env = .ok out)
    (pool : WorkerPool) (hp : pool ∈ env.pools)
    (i : Nat) (hi : i < pool.zones.length) :
    ∃ hash, env.poolHash pool = .ok hash ∧
      ∃ d ∈ out.machineDeployments, ∃ c ∈ out.machineClasses,
        d.name = env.namespace_ ++ "-" ++ pool.name ++ "-z" ++ natToString (i + 1) ∧
        d.className = d.name ++ "-" ++ hash ∧
        d.secretName = d.className ∧
        lookupS c "name" = some (.str d.className) := by
  obtain ⟨sd, infra, st, seg, f, zc, h1, h2, h3, h4, hhash, h6, h7, h8, hd, hc⟩ :=
    generateMachineConfig_mem env out h pool hp i hi
  refine ⟨f.workerPoolHash, hhash,
    mkDeployment env.namespace_ pool f.workerPoolHash i pool.zones.length, hd,
    mkClass ⟨env, infra, sd, seg⟩ pool f i zc, hc, rfl, rfl, rfl, ?_⟩
  unfold mkClass
  rw [lookupS_mapSet_ne _ _ _ _ (by decide), lookupS_mapSet_self]
  rfl

/-- Witness for C2 at the example environment, zone index 1 (visible name
suffix `-z2`). -/
theorem claim_C2_naming_witness :
    ∃ hash, exEnv.poolHash exPool = .ok hash ∧
      ∃ d ∈ exOut.machineDeployments, ∃ c ∈ exOut.machineClasses,
        d.name = exEnv.namespace_ ++ "-" ++ exPool.name ++ "-z" ++ natToString (1 + 1) ∧
        d.className = d.name ++ "-" ++ hash ∧
        d.secretName = d.className ∧
        lookupS c "name" = some (.str d.className) :=
  claim_C2_naming exEnv exOut rfl exPool (by decide) 1 (by decide)

/-- C4: a catalog machine type with CPU quantity 2 and memory quantity 4Gi
(= 4294967296 bytes) yields numCpus 2, memoryMB 4096 and the default 20 GB
system disk when it declares no storage; with a declared storage size of 5Gi
(= 5368709120 bytes) extraction fails with the invalid-value error for the
5 GB result below the 10 GB floor. -/
theorem claim_C4_machine_values (machineTypes : List MachineType) (name : String)
    (mt : MachineType) (hfind : findMachineType machineTypes name = some mt)
    (hcpu : mt.cpu.asInt64 = some 2)
    (hmem : mt.memory.asInt64 = some 4294967296) :
    (mt.storage = none →
      extractMachineValues machineTypes name = .ok (2, 4096, 20)) ∧
    (∀ q, mt.storage = some q → q.asInt64 = some 5368709120 →
      extractMachineValues machineTypes name =
        .error ("machine type " ++ name ++ " has invalid storage size value "
          ++ intToString 5 ++ " GB")) := by
  have ht1 : Int.tdiv 4294967296 (1024 * 1024) = 4096 := by decide
  constructor
  · intro hst
    simp only [extractMachineValues, hfind, hcpu, hmem, hst, ht1]
    norm_num
  · intro q hst hq
    have ht2 : Int.tdiv 5368709120 (1024 * 1024 * 1024) = 5 := by decide
    simp only [extractMachineValues, hfind, hcpu, hmem, hst, hq, ht1, ht2]
    norm_num

/-- Witness for C4 at the two example machine types (`mt1` storage-free,
`mt2` with the 5Gi storage size). -/
theorem claim_C4_machine_values_witness :
    extractMachineValues [exMT, exMTStorage] "mt1" = .ok (2, 4096, 20) ∧
    extractMachineValues [exMT, exMTStorage] "mt2" =
      .error ("machine type " ++ "mt2" ++ " has invalid storage size value "
        ++ intToString 5 ++ " GB") :=
  ⟨(claim_C4_machine_values [exMT, exMTStorage] "mt1" exMT (by decide) rfl rfl).1 rfl,
   (claim_C4_machine_values [exMT, exMTStorage] "mt2" exMTStorage (by decide) rfl rfl).2
     ⟨some 5368709120, "5Gi"⟩ rfl rfl⟩

/-- A delegate whose deployment cache is set always takes the cached branch
of `GenerateMachineDeployments`. -/
theorem GenerateMachineDeployments_cached (w : WorkerDelegate)
    (ds : List MachineDeployment) (h : w.machineDeployments = some ds) :
    GenerateMachineDeployments w = (w, .ok ds) := by
  unfold GenerateMachineDeployments
  rw [h]
  simp

/-- A delegate whose class cache is set (non-nil) always takes the cached
branch of `DeployMachineClasses`. -/
theorem DeployMachineClasses_cached (w : WorkerDelegate)
    (cs : List MachineClass) (h : w.machineClasses = some cs) :
    DeployMachineClasses w = (w, .ok cs) := by
  unfold DeployMachineClasses
  rw [h]
  simp

/-- C5 (amended): after one successful generation, the deployment cache is
always set and every subsequent `GenerateMachineDeployments` call returns the
identical cached list with the delegate unchanged; the class cache is set
exactly when the generation produced at least one machine class (the Go
`machineClasses` local is a nil slice that stays nil when nothing is
appended), and whenever it is set, every subsequent `DeployMachineClasses`
call returns the identical cached list with the delegate unchanged — so with
at least one class nothing is recomputed and repeated calls are identical. -/
theorem claim_C5_memoization (w w1 : WorkerDelegate)
    (h : generateMachineConfigRun w = (w1, none)) :
    (∃ ds, w1.machineDeployments = some ds ∧
      GenerateMachineDeployments w1 = (w1, .ok ds)) ∧
    (∃ out, generateMachineConfig w.env = .ok out ∧
      w1.machineDeployments = some out.machineDeployments ∧
      w1.machineClasses =
        (if out.machineClasses.isEmpty then none else some out.machineClasses)) ∧
    (∀ cs, w1.machineClasses = some cs →
      DeployMachineClasses w1 = (w1, .ok cs)) := by
  unfold generateMachineConfigRun at h
  split at h
  · simp at h
  next out hout =>
    injection h with h1 h2
    subst h1
    refine ⟨⟨out.machineDeployments, rfl, ?_⟩, ⟨out, hout, rfl, rfl⟩, ?_⟩
    · exact GenerateMachineDeployments_cached _ _ rfl
    · intro cs hcs
      exact DeployMachineClasses_cached _ _ hcs

/-- The example delegate before its first generation: empty caches. -/
def exDelegate : WorkerDelegate :=
  ⟨exEnv, none, none, none⟩

/-- Witness for C5: the first successful generation on the example delegate
(one pool, two zones, hence two classes), then the cached repeat calls. -/
theorem claim_C5_memoization_witness :
    (∃ ds, (generateMachineConfigRun exDelegate).1.machineDeployments = some ds ∧
      GenerateMachineDeployments (generateMachineConfigRun exDelegate).1 =
        ((generateMachineConfigRun exDelegate).1, .ok ds)) ∧
    (∃ out, generateMachineConfig exDelegate.env = .ok out ∧
      (generateMachineConfigRun exDelegate).1.machineDeployments =
        some out.machineDeployments ∧
      (generateMachineConfigRun exDelegate).1.machineClasses =
        (if out.machineClasses.isEmpty then none else some out.machineClasses)) ∧
    (∀ cs, (generateMachineConfigRun exDelegate).1.machineClasses = some cs →
      DeployMachineClasses (generateMachineConfigRun exDelegate).1 =
        ((generateMachineConfigRun exDelegate).1, .ok cs)) :=
  claim_C5_memoization exDelegate (generateMachineConfigRun exDelegate).1 rfl

/-- The example environment with an empty pool list: generation succeeds and
produces zero machine classes. -/
def exEnvNoPools : WorkerEnv :=
  { exEnv with pools := [] }

/-- A delegate over the empty-pool environment, before its first
generation. -/
def exDelegateNoPools : WorkerDelegate :=
  ⟨exEnvNoPools, none, none, none⟩

/-- C5 counterexample: on the empty-pool delegate the first generation
succeeds (error component `none`) and sets the deployment cache to the
non-nil empty slice, yet the `machineClasses` field is still `none` — the Go
nil slice of `machines.go:95` assigned unappended at line 208 — so the
`w.machineClasses == nil` test of `DeployMachineClasses` (line 50) holds on
every subsequent call and `generateMachineConfig` is re-run, refuting the
claim that every subsequent call returns the cached result without
recomputing it. -/
theorem claim_C5_counterexample :
    (generateMachineConfigRun exDelegateNoPools).2 = none ∧
    (generateMachineConfigRun exDelegateNoPools).1.machineDeployments = some [] ∧
    (generateMachineConfigRun exDelegateNoPools).1.machineClasses = none ∧
    (generateMachineConfigRun exDelegateNoPools).1.machineClasses.isNone = true :=
  ⟨rfl, rfl, rfl, rfl⟩

/-- C8: whenever the infrastructure status carries a nil network-segment
identifier (nil NSX-T state or nil segment name) or the worker spec carries
an empty SSH public key, generation fails fast with the corresponding
missing-configuration error — for any pool list whatsoever, so no pool is
processed and no deployments or classes are produced — and the delegate
state is left unchanged. -/
theorem claim_C8_missing_config (env : WorkerEnv) (sd : List (String × String))
    (infra : InfrastructureStatus)
    (hsd : generateMachineClassSecretData env = .ok sd)
    (hinf : env.infrastructureStatusResult = .ok infra)
    (hbad : infra.nsxtInfraState = none ∨
      (∃ st, infra.nsxtInfraState = some st ∧ st.segmentName = none) ∨
      env.sshPublicKey = "") :
    ∃ e, (e = "SegmentName not set in nsxtInfraState" ∨
          e = "missing sshPublicKey for infrastructure") ∧
      generateMachineConfig env = .error e ∧
      (∀ w : WorkerDelegate, w.env = env → generateMachineConfigRun w = (w, some e)) ∧
      (∀ ps, generateMachineConfig { env with pools := ps } = .error e) := by
  have key : ∃ e, (e = "SegmentName not set in nsxtInfraState" ∨
      e = "missing sshPublicKey for infrastructure") ∧
      ∀ env2 : WorkerEnv, generateMachineClassSecretData env2 = .ok sd →
        env2.infrastructureStatusResult = .ok infra →
        env2.sshPublicKey = env.sshPublicKey →
        generateMachineConfig env2 = .error e := by
    cases hA : infra.nsxtInfraState with
    | none =>
      refine ⟨"SegmentName not set in nsxtInfraState", Or.inl rfl, fun env2 h1 h2 h3 => ?_⟩
      simp [generateMachineConfig, h1, h2, hA]
    | some st =>
      cases hB : st.segmentName with
      | none =>
        refine ⟨"SegmentName not set in nsxtInfraState", Or.inl rfl, fun env2 h1 h2 h3 => ?_⟩
        simp [generateMachineConfig, h1, h2, hA, hB]
      | some seg =>
        have hssh : env.sshPublicKey = "" := by
          rcases hbad with h1 | ⟨st2, h2, h3⟩ | h4
          · rw [hA] at h1
            exact Option.noConfusion h1
          · rw [hA] at h2
            injection h2 with h2a
            rw [← h2a] at h3
            rw [hB] at h3
            exact Option.noConfusion h3
          · exact h4
        refine ⟨"missing sshPublicKey for infrastructure", Or.inr rfl, fun env2 h1 h2 h3 => ?_⟩
        have hlen0 : env2.sshPublicKey.length = 0 := by
          rw [h3, hssh]
          rfl
        simp [generateMachineConfig, h1, h2, hA, hB, hlen0]
  obtain ⟨e, he, hall⟩ := key
  have henv : generateMachineConfig env = .error e := hall env hsd hinf rfl
  refine ⟨e, he, henv, fun w hw => ?_, fun ps => hall _ hsd hinf rfl⟩
  simp only [generateMachineConfigRun, hw, henv]

/-- The example environment with the NSX-T segment name removed. -/
def exEnvNoSeg : WorkerEnv :=
  { exEnv with infrastructureStatusResult := Except.ok ⟨some ⟨none⟩, exInfra.vsphereConfig⟩ }

/-- Witness for C8: the example environment with the segment name removed. -/
theorem claim_C8_missing_config_witness :
    ∃ e, (e = "SegmentName not set in nsxtInfraState" ∨
          e = "missing sshPublicKey for infrastructure") ∧
      generateMachineConfig exEnvNoSeg = .error e ∧
      (∀ w : WorkerDelegate, w.env = exEnvNoSeg →
        generateMachineConfigRun w = (w, some e)) ∧
      (∀ ps, generateMachineConfig { exEnvNoSeg with pools := ps } = .error e) :=
  claim_C8_missing_config exEnvNoSeg
    [(hostKey, "vhost.example"), (usernameKey, "mcm-user"),
     (passwordKey, "mcm-pass"), (insecureSSLKey, "false")]
    ⟨some ⟨none⟩, exInfra.vsphereConfig⟩ rfl rfl
    (Or.inr (Or.inl ⟨⟨none⟩, rfl, rfl⟩))

/-- C10: when the shoot's region has no entry in the cloud-profile region
list, generation fails during the initial secret-data step with the
`region ... not found` error — independent of the infrastructure status, the
SSH key and the pools, none of which have been examined yet — and the
delegate state is left unchanged. -/
theorem claim_C10_region_not_found (env : WorkerEnv) (creds : Credentials)
    (hc : env.credentialsResult = .ok creds)
    (hr : findRegion env.shootRegion env.cloudProfileRegions = none) :
    generateMachineConfig env =
      .error ("region \"" ++ env.shootRegion ++ "\" not found") ∧
    (∀ w : WorkerDelegate, w.env = env →
      generateMachineConfigRun w =
        (w, some ("region \"" ++ env.shootRegion ++ "\" not found"))) ∧
    (∀ ps infraRes ssh,
      generateMachineConfig
        { env with pools := ps
                   infrastructureStatusResult := infraRes
                   sshPublicKey := ssh } =
        .error ("region \"" ++ env.shootRegion ++ "\" not found")) := by
  have hall : ∀ env2 : WorkerEnv, env2.credentialsResult = .ok creds →
      env2.shootRegion = env.shootRegion →
      env2.cloudProfileRegions = env.cloudProfileRegions →
      generateMachineConfig env2 =
        .error ("region \"" ++ env.shootRegion ++ "\" not found") := by
    intro env2 h1 h2 h3
    have hsd2 : generateMachineClassSecretData env2 =
        .error ("region \"" ++ env.shootRegion ++ "\" not found") := by
      simp [generateMachineClassSecretData, h1, h2, h3, hr]
    simp [generateMachineConfig, hsd2]
  have henv : generateMachineConfig env =
      .error ("region \"" ++ env.shootRegion ++ "\" not found") :=
    hall env hc rfl rfl
  refine ⟨henv, fun w hw => ?_, fun ps infraRes ssh => hall _ hc rfl rfl⟩
  simp only [generateMachineConfigRun, hw, henv]

/-- The example environment pointed at a region absent from the
cloud-profile config. -/
def exEnvBadRegion : WorkerEnv :=
  { exEnv with shootRegion := "r-missing" }

/-- Witness for C10: the example environment pointed at an absent region. -/
theorem claim_C10_region_not_found_witness :
    generateMachineConfig exEnvBadRegion =
      .error ("region \"" ++ exEnvBadRegion.shootRegion ++ "\" not found") ∧
    (∀ w : WorkerDelegate, w.env = exEnvBadRegion →
      generateMachineConfigRun w =
        (w, some ("region \"" ++ exEnvBadRegion.shootRegion ++ "\" not found"))) ∧
    (∀ ps infraRes ssh,
      generateMachineConfig
        { exEnvBadRegion with pools := ps
                              infrastructureStatusResult := infraRes
                              sshPublicKey := ssh } =
        .error ("region \"" ++ exEnvBadRegion.shootRegion ++ "\" not found")) :=
  claim_C10_region_not_found exEnvBadRegion ⟨"mcm-user", "mcm-pass"⟩ rfl rfl

/-- None of the optional keys (nor `name`) is among the mandatory fields of
the freshly assembled machine-class payload. -/
theorem lookupS_baseClassSpec_none (ctx : PoolCtx) (pool : WorkerPool)
    (f : PoolFacts) (zc : ZoneConfig) (key : String)
    (hkey : key ∈ ["folder", "guestId", "hostSystem", "resourcePool",
      "computeCluster", "datastore", "datastoreCluster", "switchUuid", "name"]) :
    lookupS (baseClassSpec ctx pool f zc) key = none := by
  fin_cases hkey <;> simp [baseClassSpec, lookupS]

/-- The eight optional machine-class fields: each is present exactly when its
source value is non-empty, and then carries that value. -/
theorem lookupS_mkClass_optional (ctx : PoolCtx) (pool : WorkerPool)
    (f : PoolFacts) (i : Nat) (zc : ZoneConfig) :
    lookupS (mkClass ctx pool f i zc) "folder" =
      (if ctx.infra.vsphereConfig.folder = "" then none
       else some (.str ctx.infra.vsphereConfig.folder)) ∧
    lookupS (mkClass ctx pool f i zc) "guestId" =
      (if f.machineImageGuestID = "" then none
       else some (.str f.machineImageGuestID)) ∧
    lookupS (mkClass ctx pool f i zc) "hostSystem" =
      (if zc.hostSystem = "" then none else some (.str zc.hostSystem)) ∧
    lookupS (mkClass ctx pool f i zc) "resourcePool" =
      (if zc.resourcePool = "" then none else some (.str zc.resourcePool)) ∧
    lookupS (mkClass ctx pool f i zc) "computeCluster" =
      (if zc.computeCluster = "" then none else some (.str zc.computeCluster)) ∧
    lookupS (mkClass ctx pool f i zc) "datastore" =
      (if zc.datastore = "" then none else some (.str zc.datastore)) ∧
    lookupS (mkClass ctx pool f i zc) "datastoreCluster" =
      (if zc.datastoreCluster = "" then none else some (.str zc.datastoreCluster)) ∧
    lookupS (mkClass ctx pool f i zc) "switchUuid" =
      (if zc.switchUUID = "" then none else some (.str zc.switchUUID)) := by
  unfold mkClass addOptionals
  refine ⟨?_, ?_, ?_, ?_, ?_, ?_, ?_, ?_⟩
  · rw [lookupS_mapSet_ne _ _ _ _ (by decide), lookupS_mapSet_ne _ _ _ _ (by decide),
      lookupS_addOptional_ne _ _ _ _ (by decide), lookupS_addOptional_ne _ _ _ _ (by decide),
      lookupS_addOptional_ne _ _ _ _ (by decide), lookupS_addOptional_ne _ _ _ _ (by decide),
      lookupS_addOptional_ne _ _ _ _ (by decide), lookupS_addOptional_ne _ _ _ _ (by decide),
      lookupS_addOptional_ne _ _ _ _ (by decide)]
    exact lookupS_addOptional_self _ _ _
      (lookupS_baseClassSpec_none ctx pool f zc _ (by decide))
  · rw [lookupS_mapSet_ne _ _ _ _ (by decide), lookupS_mapSet_ne _ _ _ _ (by decide),
      lookupS_addOptional_ne _ _ _ _ (by decide), lookupS_addOptional_ne _ _ _ _ (by decide),
      lookupS_addOptional_ne _ _ _ _ (by decide), lookupS_addOptional_ne _ _ _ _ (by decide),
      lookupS_addOptional_ne _ _ _ _ (by decide), lookupS_addOptional_ne _ _ _ _ (by decide)]
    refine lookupS_addOptional_self _ _ _ ?_
    rw [lookupS_addOptional_ne _ _ _ _ (by decide)]
    exact lookupS_baseClassSpec_none ctx pool f zc _ (by decide)
  · rw [lookupS_mapSet_ne _ _ _ _ (by decide), lookupS_mapSet_ne _ _ _ _ (by decide),
      lookupS_addOptional_ne _ _ _ _ (by decide), lookupS_addOptional_ne _ _ _ _ (by decide),
      lookupS_addOptional_ne _ _ _ _ (by decide), lookupS_addOptional_ne _ _ _ _ (by decide),
      lookupS_addOptional_ne _ _ _ _ (by decide)]
    refine lookupS_addOptional_self _ _ _ ?_
    rw [lookupS_addOptional_ne _ _ _ _ (by decide),
      lookupS_addOptional_ne _ _ _ _ (by decide)]
    exact lookupS_baseClassSpec_none ctx pool f zc _ (by decide)
  · rw [lookupS_mapSet_ne _ _ _ _ (by decide), lookupS_mapSet_ne _ _ _ _ (by decide),
      lookupS_addOptional_ne _ _ _ _ (by decide), lookupS_addOptional_ne _ _ _ _ (by decide),
      lookupS_addOptional_ne _ _ _ _ (by decide), lookupS_addOptional_ne _ _ _ _ (by decide)]
    refine lookupS_addOptional_self _ _ _ ?_
    rw [lookupS_addOptional_ne _ _ _ _ (by decide),
      lookupS_addOptional_ne _ _ _ _ (by decide),
      lookupS_addOptional_ne _ _ _ _ (by decide)]
    exact lookupS_baseClassSpec_none ctx pool f zc _ (by decide)
  · rw [lookupS_mapSet_ne _ _ _ _ (by decide), lookupS_mapSet_ne _ _ _ _ (by decide),
      lookupS_addOptional_ne _ _ _ _ (by decide), lookupS_addOptional_ne _ _ _ _ (by decide),
      lookupS_addOptional_ne _ _ _ _ (by decide)]
    refine lookupS_addOptional_self _ _ _ ?_
    rw [lookupS_addOptional_ne _ _ _ _ (by decide),
      lookupS_addOptional_ne _ _ _ _ (by decide),
      lookupS_addOptional_ne _ _ _ _ (by decide),
      lookupS_addOptional_ne _ _ _ _ (by decide)]
    exact lookupS_baseClassSpec_none ctx pool f zc _ (by decide)
  · rw [lookupS_mapSet_ne _ _ _ _ (by decide), lookupS_mapSet_ne _ _ _ _ (by decide),
      lookupS_addOptional_ne _ _ _ _ (by decide), lookupS_addOptional_ne _ _ _ _ (by decide)]
    refine lookupS_addOptional_self _ _ _ ?_
    rw [lookupS_addOptional_ne _ _ _ _ (by decide),
      lookupS_addOptional_ne _ _ _ _ (by decide),
      lookupS_addOptional_ne _ _ _ _ (by decide),
      lookupS_addOptional_ne _ _ _ _ (by decide),
      lookupS_addOptional_ne _ _ _ _ (by decide)]
    exact lookupS_baseClassSpec_none ctx pool f zc _ (by decide)
  · rw [lookupS_mapSet_ne _ _ _ _ (by decide), lookupS_mapSet_ne _ _ _ _ (by decide),
      lookupS_addOptional_ne _ _ _ _ (by decide)]
    refine lookupS_addOptional_self _ _ _ ?_
    rw [lookupS_addOptional_ne _ _ _ _ (by decide),
      lookupS_addOptional_ne _ _ _ _ (by decide),
      lookupS_addOptional_ne _ _ _ _ (by decide),
      lookupS_addOptional_ne _ _ _ _ (by decide),
      lookupS_addOptional_ne _ _ _ _ (by decide),
      lookupS_addOptional_ne _ _ _ _ (by decide)]
    exact lookupS_baseClassSpec_none ctx pool f zc _ (by decide)
  · rw [lookupS_mapSet_ne _ _ _ _ (by decide), lookupS_mapSet_ne _ _ _ _ (by decide)]
    refine lookupS_addOptional_self _ _ _ ?_
    rw [lookupS_addOptional_ne _ _ _ _ (by decide),
      lookupS_addOptional_ne _ _ _ _ (by decide),
      lookupS_addOptional_ne _ _ _ _ (by decide),
      lookupS_addOptional_ne _ _ _ _ (by decide),
      lookupS_addOptional_ne _ _ _ _ (by decide),
      lookupS_addOptional_ne _ _ _ _ (by decide),
      lookupS_addOptional_ne _ _ _ _ (by decide)]
    exact lookupS_baseClassSpec_none ctx pool f zc _ (by decide)

/-- C6: for every generated machine class, each of the eight optional fields
folder, guestId, hostSystem, resourcePool, computeCluster, datastore,
datastoreCluster and switchUuid is present in the record iff its source value
is a non-empty string, and then maps to exactly that value; an empty source
value leaves the key absent. -/
theorem claim_C6_optional_fields (env : WorkerEnv) (out : GenOutput)
    (h : generateMachineConfig env = .ok out)
    (pool : WorkerPool) (hp : pool ∈ env.pools)
    (i : Nat) (hi : i < pool.zones.length) :
    ∃ (infra : InfrastructureStatus) (f : PoolFacts) (zc : ZoneConfig) (c : MachineClass),
      env.infrastructureStatusResult = .ok infra ∧
      findMachineImage env pool.machineImageName pool.machineImageVersion =
        .ok (f.machineImagePath, f.machineImageGuestID) ∧
      lookupS infra.vsphereConfig.zoneConfigs pool.zones[i] = some zc ∧
      c ∈ out.machineClasses ∧
      lookupS c "folder" =
        (if infra.vsphereConfig.folder = "" then none
         else some (.str infra.vsphereConfig.folder)) ∧
      lookupS c "guestId" =
        (if f.machineImageGuestID = "" then none
         else some (.str f.machineImageGuestID)) ∧
      lookupS c "hostSystem" =
        (if zc.hostSystem = "" then none else some (.str zc.hostSystem)) ∧
      lookupS c "resourcePool" =
        (if zc.resourcePool = "" then none else some (.str zc.resourcePool)) ∧
      lookupS c "computeCluster" =
        (if zc.computeCluster = "" then none else some (.str zc.computeCluster)) ∧
      lookupS c "datastore" =
        (if zc.datastore = "" then none else some (.str zc.datastore)) ∧
      lookupS c "datastoreCluster" =
        (if zc.datastoreCluster = "" then none else some (.str zc.datastoreCluster)) ∧
      lookupS c "switchUuid" =
        (if zc.switchUUID = "" then none else some (.str zc.switchUUID)) := by
  obtain ⟨sd, infra, st, seg, f, zc, h1, h2, h3, h4, h5, h6, h7, h8, hd, hc⟩ :=
    generateMachineConfig_mem env out h pool hp i hi
  obtain ⟨o1, o2, o3, o4, o5, o6, o7, o8⟩ :=
    lookupS_mkClass_optional ⟨env, infra, sd, seg⟩ pool f i zc
  exact ⟨infra, f, zc, mkClass ⟨env, infra, sd, seg⟩ pool f i zc,
    h2, h6, h8, hc, o1, o2, o3, o4, o5, o6, o7, o8⟩

/-- Witness for C6 at the example environment, zone index 0 (zone `z1`, whose
config has hostSystem, datastore and datastoreCluster empty and the rest
set). -/
theorem claim_C6_optional_fields_witness :
    ∃ (infra : InfrastructureStatus) (f : PoolFacts) (zc : ZoneConfig) (c : MachineClass),
      exEnv.infrastructureStatusResult = .ok infra ∧
      findMachineImage exEnv exPool.machineImageName exPool.machineImageVersion =
        .ok (f.machineImagePath, f.machineImageGuestID) ∧
      lookupS infra.vsphereConfig.zoneConfigs exPool.zones[0] = some zc ∧
      c ∈ exOut.machineClasses ∧
      lookupS c "folder" =
        (if infra.vsphereConfig.folder = "" then none
         else some (.str infra.vsphereConfig.folder)) ∧
      lookupS c "guestId" =
        (if f.machineImageGuestID = "" then none
         else some (.str f.machineImageGuestID)) ∧
      lookupS c "hostSystem" =
        (if zc.hostSystem = "" then none else some (.str zc.hostSystem)) ∧
      lookupS c "resourcePool" =
        (if zc.resourcePool = "" then none else some (.str zc.resourcePool)) ∧
      lookupS c "computeCluster" =
        (if zc.computeCluster = "" then none else some (.str zc.computeCluster)) ∧
      lookupS c "datastore" =
        (if zc.datastore = "" then none else some (.str zc.datastore)) ∧
      lookupS c "datastoreCluster" =
        (if zc.datastoreCluster = "" then none else some (.str zc.datastoreCluster)) ∧
      lookupS c "switchUuid" =
        (if zc.switchUUID = "" then none else some (.str zc.switchUUID)) :=
  claim_C6_optional_fields exEnv exOut rfl exPool (by decide) 0 (by decide)

/-- A successful secret-data generation consists of exactly the four
credential entries, built from the resolved region and credentials. -/
theorem generateMachineClassSecretData_shape (env : WorkerEnv)
    (sd : List (String × String))
    (h : generateMachineClassSecretData env = .ok sd) :
    ∃ creds region, env.credentialsResult = .ok creds ∧
      findRegion env.shootRegion env.cloudProfileRegions = some region ∧
      sd = [(hostKey, region.vsphereHost), (usernameKey, creds.mcmUsername),
            (passwordKey, creds.mcmPassword),
            (insecureSSLKey, formatBool region.vsphereInsecureSSL)] := by
  unfold generateMachineClassSecretData at h
  split at h
  · exact Except.noConfusion h
  next creds hc =>
  split at h
  · exact Except.noConfusion h
  next region hr =>
  injection h with h1
  exact ⟨creds, region, hc, hr, h1.symm⟩

/-- Merging entries whose keys are fresh for the accumulator and pairwise
distinct appends them in order. -/
theorem mergeSecretData_all_fresh (sd : List (String × String)) :
    ∀ acc : List (String × String),
    (∀ p ∈ sd, ∀ q ∈ acc, q.1 ≠ p.1) →
    (sd.map Prod.fst).Nodup →
    mergeSecretData acc sd = acc ++ sd := by
  induction sd with
  | nil =>
    intro acc hfresh hnd
    simp [mergeSecretData]
  | cons p rest ih =>
    intro acc hfresh hnd
    obtain ⟨k, v⟩ := p
    have hstep : mergeSecretData acc ((k, v) :: rest) =
        mergeSecretData (mapSetS acc k v) rest := by
      simp [mergeSecretData]
    rw [hstep, mapSetS_not_mem acc k v
      (fun q hq => hfresh (k, v) (by simp) q hq)]
    have hfresh2 : ∀ p2 ∈ rest, ∀ q ∈ acc ++ [(k, v)], q.1 ≠ p2.1 := by
      intro p2 hp2 q hq
      rcases List.mem_append.mp hq with hq1 | hq2
      · exact hfresh p2 (by simp [hp2]) q hq1
      · have hqkv : q = (k, v) := by simpa using hq2
        subst hqkv
        simp only [List.map_cons, List.nodup_cons] at hnd
        intro he
        apply hnd.1
        have hk : k = p2.1 := he
        rw [hk]
        exact List.mem_map_of_mem Prod.fst hp2
    have hnd2 : (rest.map Prod.fst).Nodup := by
      simp only [List.map_cons, List.nodup_cons] at hnd
      exact hnd.2
    rw [ih (acc ++ [(k, v)]) hfresh2 hnd2]
    simp

/-- C7: every generated machine class's secret map is the single-entry
`cloudConfig ↦ user-data` map extended, after the user-data key, with exactly
the four credential keys (host, username, password, insecure-SSL flag); the
credential key set is closed and does not contain `cloudConfig`, so the
merged map still sends `cloudConfig` to the pool's user data. -/
theorem claim_C7_secret_map (env : WorkerEnv) (out : GenOutput)
    (h : generateMachineConfig env = .ok out)
    (pool : WorkerPool) (hp : pool ∈ env.pools)
    (i : Nat) (hi : i < pool.zones.length) :
    ∃ sd c, generateMachineClassSecretData env = .ok sd ∧
      c ∈ out.machineClasses ∧
      sd.map Prod.fst = [hostKey, usernameKey, passwordKey, insecureSSLKey] ∧
      "cloudConfig" ∉ sd.map Prod.fst ∧
      mergeSecretData [("cloudConfig", pool.userData)] sd =
        ("cloudConfig", pool.userData) :: sd ∧
      lookupS c "secret" = some (.strMap (("cloudConfig", pool.userData) :: sd)) ∧
      lookupS (("cloudConfig", pool.userData) :: sd) "cloudConfig" =
        some pool.userData := by
  obtain ⟨sd, infra, st, seg, f, zc, h1, h2, h3, h4, h5, h6, h7, h8, hd, hc⟩ :=
    generateMachineConfig_mem env out h pool hp i hi
  obtain ⟨creds, region, hcr, hrg, hsd⟩ := generateMachineClassSecretData_shape env sd h1
  have hkeys : sd.map Prod.fst = [hostKey, usernameKey, passwordKey, insecureSSLKey] := by
    rw [hsd]
    simp
  have hmerge : mergeSecretData [("cloudConfig", pool.userData)] sd =
      ("cloudConfig", pool.userData) :: sd := by
    have := mergeSecretData_all_fresh sd [("cloudConfig", pool.userData)]
      (by
        intro p hps q hq
        have hq2 : q = ("cloudConfig", pool.userData) := by simpa using hq
        subst hq2
        rw [hsd] at hps
        simp only [List.mem_cons, List.not_mem_nil, or_false] at hps
        rcases hps with h | h | h | h <;> subst h <;>
          simp [hostKey, usernameKey, passwordKey, insecureSSLKey])
      (by
        rw [hkeys]
        decide)
    simpa using this
  refine ⟨sd, mkClass ⟨env, infra, sd, seg⟩ pool f i zc, h1, hc, hkeys, ?_, hmerge, ?_, ?_⟩
  · rw [hkeys]
    decide
  · unfold mkClass
    rw [lookupS_mapSet_self, hmerge]
  · simp [lookupS]

/-- Witness for C7 at the example environment, zone index 0. -/
theorem claim_C7_secret_map_witness :
    ∃ sd c, generateMachineClassSecretData exEnv = .ok sd ∧
      c ∈ exOut.machineClasses ∧
      sd.map Prod.fst = [hostKey, usernameKey, passwordKey, insecureSSLKey] ∧
      "cloudConfig" ∉ sd.map Prod.fst ∧
      mergeSecretData [("cloudConfig", exPool.userData)] sd =
        ("cloudConfig", exPool.userData) :: sd ∧
      lookupS c "secret" = some (.strMap (("cloudConfig", exPool.userData) :: sd)) ∧
      lookupS (("cloudConfig", exPool.userData) :: sd) "cloudConfig" =
        some exPool.userData :=
  claim_C7_secret_map exEnv exOut rfl exPool (by decide) 0 (by decide)

/-- When every zone of the pool has a zone config, the zone loop succeeds. -/
theorem buildZones_all_found (ctx : PoolCtx) (pool : WorkerPool) (f : PoolFacts)
    (zoneLen : Nat) :
    ∀ (zones : List String) (k : Nat),
    (∀ z ∈ zones, ∃ zc, lookupS ctx.infra.vsphereConfig.zoneConfigs z = some zc) →
    ∃ zs, buildZones ctx pool f zoneLen k zones = .ok zs := by
  intro zones
  induction zones with
  | nil =>
    intro k hall
    exact ⟨[], rfl⟩
  | cons z rest ih =>
    intro k hall
    obtain ⟨zc, hzc⟩ := hall z (by simp)
    obtain ⟨zs, hzs⟩ := ih (k + 1) (fun z2 hz2 => hall z2 (by simp [hz2]))
    exact ⟨(mkDeployment ctx.env.namespace_ pool f.workerPoolHash k zoneLen,
            mkClass ctx pool f k zc) :: zs, by
      rw [buildZones]
      simp only [buildZone, hzc, hzs]⟩

/-- When some zone of the pool has no zone config, the zone loop fails with a
`zoneConfig not found` error naming a zone that is indeed missing. -/
theorem buildZones_missing (ctx : PoolCtx) (pool : WorkerPool) (f : PoolFacts)
    (zoneLen : Nat) :
    ∀ (zones : List String) (k : Nat) (zone : String),
    zone ∈ zones →
    lookupS ctx.infra.vsphereConfig.zoneConfigs zone = none →
    ∃ z, lookupS ctx.infra.vsphereConfig.zoneConfigs z = none ∧
      buildZones ctx pool f zoneLen k zones =
        .error ("zoneConfig not found for zone " ++ z) := by
  intro zones
  induction zones with
  | nil =>
    intro k zone h
    simp at h
  | cons z0 rest ih =>
    intro k zone hmem hnone
    cases hlk : lookupS ctx.infra.vsphereConfig.zoneConfigs z0 with
    | none =>
      refine ⟨z0, hlk, ?_⟩
      rw [buildZones]
      simp only [buildZone, hlk]
    | some zc =>
      have hzr : zone ∈ rest := by
        rcases List.mem_cons.mp hmem with he | hr
        · subst he
          rw [hlk] at hnone
          exact Option.noConfusion hnone
        · exact hr
      obtain ⟨z1, hz1, herr⟩ := ih (k + 1) zone hzr hnone
      refine ⟨z1, hz1, ?_⟩
      rw [buildZones]
      simp only [buildZone, hlk, herr]

/-- When some zone of some pool has no zone config while every pool's hash,
image and machine-type facts resolve, the pool loop fails with a
`zoneConfig not found` error naming a missing zone. -/
theorem processPools_missing (ctx : PoolCtx) :
    ∀ (pools : List WorkerPool) (images : List MachineImage),
    (∀ p ∈ pools, (∃ hs, ctx.env.poolHash p = .ok hs) ∧
      (∃ pg, findMachineImage ctx.env p.machineImageName p.machineImageVersion = .ok pg) ∧
      (∃ v, extractMachineValues ctx.env.machineTypes p.machineTypeName = .ok v)) →
    ∀ pool ∈ pools, ∀ zone ∈ pool.zones,
    lookupS ctx.infra.vsphereConfig.zoneConfigs zone = none →
    ∃ z, lookupS ctx.infra.vsphereConfig.zoneConfigs z = none ∧
      processPools ctx pools images =
        .error ("zoneConfig not found for zone " ++ z) := by
  intro pools
  induction pools with
  | nil =>
    intro images hres pool hp
    simp at hp
  | cons p rest ih =>
    intro images hres pool hp zone hz hnone
    obtain ⟨⟨hs, hhash⟩, ⟨pg, himg⟩, ⟨v, hmv⟩⟩ := hres p (by simp)
    obtain ⟨path, gid⟩ := pg
    obtain ⟨a, b, c⟩ := v
    by_cases hzall : ∀ z2 ∈ p.zones,
      ∃ zc, lookupS ctx.infra.vsphereConfig.zoneConfigs z2 = some zc
    · obtain ⟨zs, hzs⟩ :=
        buildZones_all_found ctx p ⟨hs, path, gid, a, b, c⟩ p.zones.length p.zones 0 hzall
      have hpr : pool ∈ rest := by
        rcases List.mem_cons.mp hp with he | hr
        · subst he
          obtain ⟨zc, hzc⟩ := hzall zone hz
          rw [hzc] at hnone
          exact Option.noConfusion hnone
        · exact hr
      obtain ⟨z1, hz1, herr⟩ := ih
        (appendMachineImage images ⟨p.machineImageName, p.machineImageVersion, path, gid⟩)
        (fun q hq => hres q (by simp [hq])) pool hpr zone hz hnone
      refine ⟨z1, hz1, ?_⟩
      rw [processPools]
      simp only [hhash, himg, hmv, hzs, herr]
    · push_neg at hzall
      obtain ⟨z2, hz2mem, hz2none⟩ := hzall
      have hz2n : lookupS ctx.infra.vsphereConfig.zoneConfigs z2 = none := by
        cases hl : lookupS ctx.infra.vsphereConfig.zoneConfigs z2 with
        | none => rfl
        | some zc => exact absurd hl (hz2none zc)
      obtain ⟨z1, hz1, herr⟩ :=
        buildZones_missing ctx p ⟨hs, path, gid, a, b, c⟩ p.zones.length p.zones 0
          z2 hz2mem hz2n
      refine ⟨z1, hz1, ?_⟩
      rw [processPools]
      simp only [hhash, himg, hmv, herr]

/-- C3: generation is all-or-nothing. If any zone referenced by any pool has
no entry in the zone-config table (all other per-pool lookups resolving),
`generateMachineConfig` fails with the NotFound-style `zoneConfig not found`
error naming a missing zone, the delegate state is left unchanged, and no
output is produced for any pool (generation cannot succeed). -/
theorem claim_C3_all_or_nothing (env : WorkerEnv) (sd : List (String × String))
    (infra : InfrastructureStatus) (st : NSXTInfraState) (seg : String)
    (hsd : generateMachineClassSecretData env = .ok sd)
    (hinf : env.infrastructureStatusResult = .ok infra)
    (hst : infra.nsxtInfraState = some st)
    (hseg : st.segmentName = some seg)
    (hssh : env.sshPublicKey.length ≠ 0)
    (hres : ∀ p ∈ env.pools, (∃ hs, env.poolHash p = .ok hs) ∧
      (∃ pg, findMachineImage env p.machineImageName p.machineImageVersion = .ok pg) ∧
      (∃ v, extractMachineValues env.machineTypes p.machineTypeName = .ok v))
    (pool : WorkerPool) (hp : pool ∈ env.pools)
    (zone : String) (hz : zone ∈ pool.zones)
    (hnone : lookupS infra.vsphereConfig.zoneConfigs zone = none) :
    ∃ z, lookupS infra.vsphereConfig.zoneConfigs z = none ∧
      generateMachineConfig env = .error ("zoneConfig not found for zone " ++ z) ∧
      (∀ w : WorkerDelegate, w.env = env →
        generateMachineConfigRun w =
          (w, some ("zoneConfig not found for zone " ++ z))) ∧
      ∀ out, generateMachineConfig env ≠ .ok out := by
  obtain ⟨z, hzn, herr⟩ :=
    processPools_missing ⟨env, infra, sd, seg⟩ env.pools [] hres pool hp zone hz hnone
  have hgen : generateMachineConfig env =
      .error ("zoneConfig not found for zone " ++ z) := by
    simp [generateMachineConfig, hsd, hinf, hst, hseg, hssh, herr]
  refine ⟨z, hzn, hgen, fun w hw => ?_, fun out hout => ?_⟩
  · simp only [generateMachineConfigRun, hw, hgen]
  · rw [hgen] at hout
    exact Except.noConfusion hout

/-- The example pool referencing the unconfigured zone `zX`. -/
def exPoolZoneMiss : WorkerPool :=
  { exPool with zones := ["z1", "zX"] }

/-- The example environment whose single pool references the unconfigured
zone `zX`. -/
def exEnvZoneMiss : WorkerEnv :=
  { exEnv with pools := [exPoolZoneMiss] }

/-- Witness for C3: the example environment with zone `zX` missing from the
zone-config table. -/
theorem claim_C3_all_or_nothing_witness :
    ∃ z, lookupS exInfra.vsphereConfig.zoneConfigs z = none ∧
      generateMachineConfig exEnvZoneMiss =
        .error ("zoneConfig not found for zone " ++ z) ∧
      (∀ w : WorkerDelegate, w.env = exEnvZoneMiss →
        generateMachineConfigRun w =
          (w, some ("zoneConfig not found for zone " ++ z))) ∧
      ∀ out, generateMachineConfig exEnvZoneMiss ≠ .ok out :=
  claim_C3_all_or_nothing exEnvZoneMiss
    [(hostKey, "vhost.example"), (usernameKey, "mcm-user"),
     (passwordKey, "mcm-pass"), (insecureSSLKey, "false")]
    exInfra ⟨some "seg-1"⟩ "seg-1" rfl rfl rfl rfl (by decide)
    (fun p hp => by
      have hpe : p = exPoolZoneMiss := by simpa [exEnvZoneMiss] using hp
      subst hpe
      exact ⟨⟨"abc12", rfl⟩, ⟨("templates/img-1.0", "guest-1"), rfl⟩,
        ⟨(2, 4096, 20), rfl⟩⟩)
    exPoolZoneMiss (by decide) "zX" (by decide) rfl

/-- Equal data lists give equal strings. -/
theorem stringDataInj {s t : String} (h : s.data = t.data) : s = t := by
  cases s
  cases t
  exact congrArg String.mk h

/-- Unfolding equation of the reference decimal renderer with a plain
if-then-else. -/
theorem natToStringAux_unfold (n : Nat) : natToStringAux n =
    if n < 10 then [natDigitChar n]
    else natToStringAux (n / 10) ++ [natDigitChar (n % 10)] := by
  rw [natToStringAux]
  by_cases hn : n < 10
  · simp [hn]
  · simp [hn]

/-- Every character produced by the decimal renderer is a digit. -/
theorem natToStringAux_digits (n : Nat) : ∀ c ∈ natToStringAux n, c.isDigit := by
  induction n using Nat.strong_induction_on with
  | _ n ih =>
    intro c hc
    rw [natToStringAux_unfold] at hc
    by_cases h10 : n < 10
    · rw [if_pos h10] at hc
      have hc2 : c = natDigitChar n := by simpa using hc
      subst hc2
      interval_cases n <;> decide
    · rw [if_neg h10] at hc
      rcases List.mem_append.mp hc with h1 | h2
      · exact ih (n / 10) (Nat.div_lt_self (by omega) (by omega)) c h1
      · have hc2 : c = natDigitChar (n % 10) := by simpa using h2
        subst hc2
        have hlt : n % 10 < 10 := Nat.mod_lt _ (by omega)
        interval_cases h : n % 10 <;> decide

/-- The decimal renderer never returns an empty digit list. -/
theorem natToStringAux_ne_nil (n : Nat) : natToStringAux n ≠ [] := by
  rw [natToStringAux_unfold]
  by_cases h10 : n < 10
  · simp [h10]
  · simp [h10]

/-- The digit characters are pairwise distinct below 10. -/
theorem natDigitChar_inj (m k : Nat) (hm : m < 10) (hk : k < 10)
    (h : natDigitChar m = natDigitChar k) : m = k := by
  interval_cases m <;> interval_cases k <;> simp_all [natDigitChar]

/-- The decimal renderer is injective. -/
theorem natToStringAux_inj (m : Nat) : ∀ k, natToStringAux m = natToStringAux k → m = k := by
  induction m using Nat.strong_induction_on with
  | _ m ih =>
    intro k h
    rw [natToStringAux_unfold m, natToStringAux_unfold k] at h
    by_cases hm : m < 10 <;> by_cases hk : k < 10
    · rw [if_pos hm, if_pos hk] at h
      have h2 : natDigitChar m = natDigitChar k := by simpa using h
      exact natDigitChar_inj m k hm hk h2
    · rw [if_pos hm, if_neg hk] at h
      have hlen := congrArg List.length h
      cases hne : natToStringAux (k / 10) with
      | nil => exact absurd hne (natToStringAux_ne_nil (k / 10))
      | cons a l =>
        rw [hne] at hlen
        simp at hlen
    · rw [if_neg hm, if_pos hk] at h
      have hlen := congrArg List.length h
      cases hne : natToStringAux (m / 10) with
      | nil => exact absurd hne (natToStringAux_ne_nil (m / 10))
      | cons a l =>
        rw [hne] at hlen
        simp at hlen
    · rw [if_neg hm, if_neg hk] at h
      obtain ⟨h1, h2⟩ := List.append_inj' h (by simp)
      have hdiv : m / 10 = k / 10 :=
        ih (m / 10) (Nat.div_lt_self (by omega) (by omega)) (k / 10) h1
      have hmod : m % 10 = k % 10 := by
        have h3 : natDigitChar (m % 10) = natDigitChar (k % 10) := by simpa using h2
        exact natDigitChar_inj _ _ (Nat.mod_lt _ (by omega)) (Nat.mod_lt _ (by omega)) h3
      omega

/-- Cancelling a run of digit characters before a common non-digit marker. -/
theorem digitRun_inj (c : Char) (hc : ¬ c.isDigit) :
    ∀ (a1 a2 r1 r2 : List Char),
    (∀ x ∈ a1, x.isDigit) → (∀ x ∈ a2, x.isDigit) →
    a1 ++ c :: r1 = a2 ++ c :: r2 → a1 = a2 ∧ r1 = r2 := by
  intro a1
  induction a1 with
  | nil =>
    intro a2 r1 r2 h1 h2 heq
    cases a2 with
    | nil =>
      simp at heq
      exact ⟨rfl, heq⟩
    | cons d a2t =>
      simp only [List.nil_append, List.cons_append, List.cons.injEq] at heq
      have hd : c.isDigit := by
        rw [heq.1]
        exact h2 d (by simp)
      exact absurd hd hc
  | cons d a1t ih1 =>
    intro a2 r1 r2 h1 h2 heq
    cases a2 with
    | nil =>
      simp only [List.nil_append, List.cons_append, List.cons.injEq] at heq
      have hd : c.isDigit := by
        rw [← heq.1]
        exact h1 d (by simp)
      exact absurd hd hc
    | cons e a2t =>
      simp only [List.cons_append, List.cons.injEq] at heq
      obtain ⟨hde, htl⟩ := heq
      obtain ⟨ha, hr⟩ := ih1 a2t r1 r2
        (fun x hx => h1 x (by simp [hx])) (fun x hx => h2 x (by simp [hx])) htl
      subst hde
      exact ⟨by rw [ha], hr⟩

/-- The underlying digit list of the rendered number. -/
theorem natToString_data (n : Nat) : (natToString n).data = natToStringAux n := by
  rw [natToString_eq]

/-- Every character of the rendered number is a digit. -/
theorem natToString_data_digits (n : Nat) : ∀ c ∈ (natToString n).data, c.isDigit := by
  rw [natToString_data]
  exact natToStringAux_digits n

/-- Injectivity of the class name in (pool name, zone index, hash), for a
fixed namespace and equal hash lengths. -/
theorem mkClassName_inj (ns p1 p2 : String) (i1 i2 : Nat) (h1 h2 : String)
    (hlen : h1.length = h2.length)
    (heq : mkClassName ns p1 i1 h1 = mkClassName ns p2 i2 h2) :
    p1 = p2 ∧ i1 = i2 ∧ h1 = h2 := by
  have hd := congrArg String.data heq
  have hdash : ("-" : String).data = ['-'] := rfl
  have hzm : ("-z" : String).data = ['-', 'z'] := rfl
  simp only [mkClassName, mkDeploymentName, String.data_append, hdash, hzm,
    List.append_assoc, List.cons_append, List.nil_append] at hd
  have hd2 : (ns.data ++ '-' :: (p1.data ++ '-' :: 'z' :: (natToString (i1 + 1)).data))
      ++ ('-' :: h1.data) =
      (ns.data ++ '-' :: (p2.data ++ '-' :: 'z' :: (natToString (i2 + 1)).data))
      ++ ('-' :: h2.data) := by
    simp only [List.append_assoc, List.cons_append, List.nil_append]
    exact hd
  obtain ⟨hA, hH⟩ := List.append_inj' hd2 (by
    have hl : h1.data.length = h2.data.length := hlen
    simp [hl])
  have hh : h1 = h2 := by
    apply stringDataInj
    simpa using hH
  have hA2 : p1.data ++ '-' :: 'z' :: (natToString (i1 + 1)).data =
      p2.data ++ '-' :: 'z' :: (natToString (i2 + 1)).data := by
    have hcan := List.append_cancel_left hA
    simpa using hcan
  have hrev := congrArg List.reverse hA2
  simp only [List.reverse_append, List.reverse_cons, List.append_assoc,
    List.nil_append, List.cons_append] at hrev
  have hrev2 : (natToString (i1 + 1)).data.reverse ++ ('z' :: '-' :: p1.data.reverse) =
      (natToString (i2 + 1)).data.reverse ++ ('z' :: '-' :: p2.data.reverse) := by
    simpa [List.append_assoc] using hrev
  obtain ⟨hs, hrest⟩ := digitRun_inj 'z' (by decide) _ _ _ _
    (fun x hx => natToString_data_digits (i1 + 1) x (List.mem_reverse.mp hx))
    (fun x hx => natToString_data_digits (i2 + 1) x (List.mem_reverse.mp hx))
    hrev2
  have hp : p1 = p2 := by
    apply stringDataInj
    have hpr : p1.data.reverse = p2.data.reverse := by
      simpa using hrest
    simpa using congrArg List.reverse hpr
  have hi : i1 = i2 := by
    have hsd : (natToString (i1 + 1)).data = (natToString (i2 + 1)).data := by
      simpa using congrArg List.reverse hs
    rw [natToString_data, natToString_data] at hsd
    have := natToStringAux_inj (i1 + 1) (i2 + 1) hsd
    omega
  exact ⟨hp, hi, hh⟩

/-- The machine-class record carries its class name under the `name` key. -/
theorem lookupS_mkClass_name (ctx : PoolCtx) (pool : WorkerPool) (f : PoolFacts)
    (i : Nat) (zc : ZoneConfig) :
    lookupS (mkClass ctx pool f i zc) "name" =
      some (.str (mkClassName ctx.env.namespace_ pool.name i f.workerPoolHash)) := by
  unfold mkClass
  rw [lookupS_mapSet_ne _ _ _ _ (by decide), lookupS_mapSet_self]

/-- The deployments of a successful zone loop are exactly the per-index
`mkDeployment` records, in zone order. -/
theorem buildZones_ok_fst (ctx : PoolCtx) (pool : WorkerPool) (f : PoolFacts)
    (zoneLen : Nat) :
    ∀ (zones : List String) (k : Nat) (zs : List (MachineDeployment × MachineClass)),
    buildZones ctx pool f zoneLen k zones = .ok zs →
    zs.map Prod.fst = (List.range zones.length).map
      (fun j => mkDeployment ctx.env.namespace_ pool f.workerPoolHash (k + j) zoneLen) := by
  intro zones
  induction zones with
  | nil =>
    intro k zs h
    injection h with h1
    subst h1
    simp
  | cons z rest ih =>
    intro k zs h
    rw [buildZones] at h
    split at h
    · exact Except.noConfusion h
    next r hz =>
    split at h
    · exact Except.noConfusion h
    next rs hrest =>
    injection h with h1
    subst h1
    unfold buildZone at hz
    split at hz
    · exact Except.noConfusion hz
    next zc hlk =>
    injection hz with hz1
    subst hz1
    simp only [List.map_cons, List.length_cons]
    rw [ih (k + 1) rs hrest, List.range_succ_eq_map]
    simp only [List.map_cons, List.map_map, Nat.add_zero, List.cons.injEq]
    refine ⟨by trivial, ?_⟩
    apply List.map_congr_left
    intro j hj
    have hkj : k + 1 + j = k + (j + 1) := by omega
    simp only [Function.comp]
    rw [hkj]

/-- A successful zone loop produces one record per zone. -/
theorem buildZones_ok_length (ctx : PoolCtx) (pool : WorkerPool) (f : PoolFacts)
    (zoneLen : Nat) (zones : List String) (k : Nat)
    (zs : List (MachineDeployment × MachineClass))
    (h : buildZones ctx pool f zoneLen k zones = .ok zs) :
    zs.length = zones.length := by
  have hfst := buildZones_ok_fst ctx pool f zoneLen zones k zs h
  have := congrArg List.length hfst
  simpa using this

/-- Every record of a successful zone loop carries its deployment's class
name under the class's `name` key. -/
theorem buildZones_ok_names (ctx : PoolCtx) (pool : WorkerPool) (f : PoolFacts)
    (zoneLen : Nat) :
    ∀ (zones : List String) (k : Nat) (zs : List (MachineDeployment × MachineClass)),
    buildZones ctx pool f zoneLen k zones = .ok zs →
    ∀ r ∈ zs, lookupS r.2 "name" = some (.str r.1.className) := by
  intro zones
  induction zones with
  | nil =>
    intro k zs h
    injection h with h1
    subst h1
    simp
  | cons z rest ih =>
    intro k zs h
    rw [buildZones] at h
    split at h
    · exact Except.noConfusion h
    next r hz =>
    split at h
    · exact Except.noConfusion h
    next rs hrest =>
    injection h with h1
    subst h1
    intro r2 hr2
    rcases List.mem_cons.mp hr2 with he | hm
    · subst he
      unfold buildZone at hz
      split at hz
      · exact Except.noConfusion hz
      next zc hlk =>
      injection hz with hz1
      subst hz1
      exact lookupS_mkClass_name ctx pool f k zc
    · exact ih (k + 1) rs hrest r2 hm

/-- Shape of a successful pool loop: counts per pool, the class-name list
matching the deployment class names, and each deployment's class name built
by `mkClassName` from some pool of the list. -/
theorem processPools_ok_shape (ctx : PoolCtx) :
    ∀ (pools : List WorkerPool) (images : List MachineImage)
      (ds : List MachineDeployment) (cs : List MachineClass) (imgs : List MachineImage),
    processPools ctx pools images = .ok (ds, cs, imgs) →
    ds.length = (pools.map (fun p => p.zones.length)).sum ∧
    cs.length = (pools.map (fun p => p.zones.length)).sum ∧
    cs.map (fun c => lookupS c "name") = ds.map (fun d => some (Val.str d.className)) ∧
    (∀ d ∈ ds, ∃ q ∈ pools, ∃ hq, ctx.env.poolHash q = .ok hq ∧
      ∃ j, j < q.zones.length ∧
        d.className = mkClassName ctx.env.namespace_ q.name j hq) := by
  intro pools
  induction pools with
  | nil =>
    intro images ds cs imgs h
    injection h with h1
    simp only [Prod.mk.injEq] at h1
    obtain ⟨hds, hcs, himgs⟩ := h1
    subst hds
    subst hcs
    simp
  | cons p rest ih =>
    intro images ds cs imgs h
    rw [processPools] at h
    split at h
    · exact Except.noConfusion h
    next workerPoolHash hh =>
    split at h
    · exact Except.noConfusion h
    next machineImagePath machineImageGuestID himg =>
    split at h
    · exact Except.noConfusion h
    next numCpus memoryInMB systemDiskSizeInGB hmv =>
    split at h
    · exact Except.noConfusion h
    next zs hbz =>
    split at h
    · exact Except.noConfusion h
    next ds2 cs2 imgs2 hpp =>
    injection h with h1
    simp only [Prod.mk.injEq] at h1
    obtain ⟨hds, hcs, himgs⟩ := h1
    subst hds
    subst hcs
    obtain ⟨ih1, ih2, ih3, ih4⟩ := ih _ ds2 cs2 imgs2 hpp
    have hlen := buildZones_ok_length ctx p _ p.zones.length p.zones 0 zs hbz
    have hfst := buildZones_ok_fst ctx p _ p.zones.length p.zones 0 zs hbz
    refine ⟨?_, ?_, ?_, ?_⟩
    · simp [hlen, ih1]
    · simp [hlen, ih2]
    · simp only [List.map_append, ih3, List.map_map]
      congr 1
      have hnames := buildZones_ok_names ctx p _ p.zones.length p.zones 0 zs hbz
      exact List.map_congr_left (fun r hr => hnames r hr)
    · intro d hd
      rcases List.mem_append.mp hd with h1 | h2
      · rw [hfst] at h1
        obtain ⟨j, hj, hdj⟩ := List.mem_map.mp h1
        refine ⟨p, by simp, workerPoolHash, hh, j, by simpa using hj, ?_⟩
        rw [← hdj]
        simp [mkDeployment]
      · obtain ⟨q, hq, hqh, hhq, j, hj, hcls⟩ := ih4 d h2
        exact ⟨q, by simp [hq], hqh, hhq, j, hj, hcls⟩

/-- Transport of freedom from duplicates along an injective post-map. -/
theorem nodup_map_of_nodup_map {α β γ : Type} (f : α → β) (g : β → γ) (F : α → γ)
    (hF : ∀ a, F a = g (f a)) (hg : Function.Injective g) (l : List α)
    (h : (l.map f).Nodup) : (l.map F).Nodup := by
  have he : l.map F = (l.map f).map g := by
    rw [List.map_map]
    exact List.map_congr_left (fun a ha => hF a)
  rw [he]
  exact h.map hg

/-- Under pairwise-distinct pool names and a uniform hash length, the class
names accumulated by the pool loop are pairwise distinct. -/
theorem processPools_names_nodup (ctx : PoolCtx) (L : Nat) :
    ∀ (pools : List WorkerPool) (images : List MachineImage)
      (ds : List MachineDeployment) (cs : List MachineClass) (imgs : List MachineImage),
    processPools ctx pools images = .ok (ds, cs, imgs) →
    (pools.map (fun p => p.name)).Nodup →
    (∀ p ∈ pools, ∀ s, ctx.env.poolHash p = .ok s → s.length = L) →
    (ds.map (fun d => d.className)).Nodup := by
  intro pools
  induction pools with
  | nil =>
    intro images ds cs imgs h hn hh
    injection h with h1
    simp only [Prod.mk.injEq] at h1
    obtain ⟨hds, -, -⟩ := h1
    subst hds
    simp
  | cons p rest ih =>
    intro images ds cs imgs h hn hh
    rw [processPools] at h
    split at h
    · exact Except.noConfusion h
    next workerPoolHash hhash =>
    split at h
    · exact Except.noConfusion h
    next machineImagePath machineImageGuestID himg =>
    split at h
    · exact Except.noConfusion h
    next numCpus memoryInMB systemDiskSizeInGB hmv =>
    split at h
    · exact Except.noConfusion h
    next zs hbz =>
    split at h
    · exact Except.noConfusion h
    next ds2 cs2 imgs2 hpp =>
    injection h with h1
    simp only [Prod.mk.injEq] at h1
    obtain ⟨hds, hcs, himgs⟩ := h1
    subst hds
    simp only [List.map_cons, List.nodup_cons] at hn
    have hfst := buildZones_ok_fst ctx p _ p.zones.length p.zones 0 zs hbz
    have hplen : workerPoolHash.length = L := hh p (by simp) workerPoolHash hhash
    rw [List.map_append]
    refine List.Nodup.append ?_ ?_ ?_
    · rw [hfst, List.map_map]
      refine List.Nodup.map ?_ (List.nodup_range _)
      intro a b hab
      have hinj := mkClassName_inj ctx.env.namespace_ p.name p.name (0 + a) (0 + b)
        workerPoolHash workerPoolHash rfl hab
      omega
    · exact ih _ ds2 cs2 imgs2 hpp hn.2 (fun q hq => hh q (by simp [hq]))
    · intro x hx1 hx2
      rw [hfst, List.map_map] at hx1
      obtain ⟨j, hj, hx⟩ := List.mem_map.mp hx1
      obtain ⟨d, hd, hdx⟩ := List.mem_map.mp hx2
      obtain ⟨-, -, -, helem⟩ := processPools_ok_shape ctx rest _ ds2 cs2 imgs2 hpp
      obtain ⟨q, hq, hq2, hhq, j2, hj2, hcls⟩ := helem d hd
      have hqlen : hq2.length = L := hh q (by simp [hq]) hq2 hhq
      have hx2 : mkClassName ctx.env.namespace_ p.name (0 + j) workerPoolHash = x := hx
      have hxeq : mkClassName ctx.env.namespace_ p.name (0 + j) workerPoolHash =
          mkClassName ctx.env.namespace_ q.name j2 hq2 := by
        rw [hx2, ← hdx, hcls]
      obtain ⟨hpq, -, -⟩ := mkClassName_inj _ _ _ _ _ _ _ (by omega) hxeq
      apply hn.1
      rw [hpq]
      exact List.mem_map_of_mem _ hq

/-- C9 (amended): on every successful generation the deployment count and the
class count both equal the sum of the pools' zone counts, and the class
records' names coincide with the deployments' class names; provided the pool
names are pairwise distinct and all pool hashes share one length, those class
names are pairwise distinct. -/
theorem claim_C9_counts_unique (env : WorkerEnv) (out : GenOutput)
    (h : generateMachineConfig env = .ok out)
    (hnames : (env.pools.map (fun p => p.name)).Nodup)
    (L : Nat)
    (hhash : ∀ p ∈ env.pools, ∀ s, env.poolHash p = .ok s → s.length = L) :
    out.machineDeployments.length = (env.pools.map (fun p => p.zones.length)).sum ∧
    out.machineClasses.length = (env.pools.map (fun p => p.zones.length)).sum ∧
    out.machineClasses.map (fun c => lookupS c "name") =
      out.machineDeployments.map (fun d => some (Val.str d.className)) ∧
    (out.machineDeployments.map (fun d => d.className)).Nodup ∧
    (out.machineClasses.map (fun c => lookupS c "name")).Nodup := by
  obtain ⟨sd, infra, st, seg, hsd, hinf, hst, hseg, hssh, hpp⟩ :=
    generateMachineConfig_ok env out h
  obtain ⟨l1, l2, l3, -⟩ :=
    processPools_ok_shape ⟨env, infra, sd, seg⟩ env.pools [] _ _ _ hpp
  have hnd := processPools_names_nodup ⟨env, infra, sd, seg⟩ L env.pools [] _ _ _
    hpp hnames hhash
  refine ⟨l1, l2, l3, hnd, ?_⟩
  rw [l3]
  exact nodup_map_of_nodup_map (fun d => d.className) (fun n => some (Val.str n))
    (fun d => some (Val.str d.className)) (fun d => rfl)
    (fun a b hab => by simpa using hab) out.machineDeployments hnd

/-- Witness for the amended C9 at the example environment (hash length 5). -/
theorem claim_C9_counts_unique_witness :
    exOut.machineDeployments.length = (exEnv.pools.map (fun p => p.zones.length)).sum ∧
    exOut.machineClasses.length = (exEnv.pools.map (fun p => p.zones.length)).sum ∧
    exOut.machineClasses.map (fun c => lookupS c "name") =
      exOut.machineDeployments.map (fun d => some (Val.str d.className)) ∧
    (exOut.machineDeployments.map (fun d => d.className)).Nodup ∧
    (exOut.machineClasses.map (fun c => lookupS c "name")).Nodup :=
  claim_C9_counts_unique exEnv exOut rfl (by decide) 5
    (fun p hp s hs => by
      have hs2 : Except.ok (ε := String) "abc12" = Except.ok s := hs
      injection hs2 with h1
      rw [← h1]
      rfl)

/-- The example environment listing the same pool twice. -/
def exEnvDup : WorkerEnv :=
  { exEnv with pools := [exPool, exPool] }

/-- The successful generation output on the duplicated-pool environment. -/
def exOutDup : GenOutput :=
  (generateMachineConfig exEnvDup).toOption.getD ⟨[], [], []⟩

/-- C9 counterexample: with two identical pools (same name, same hash),
generation succeeds yet the generated machine-class names are NOT pairwise
distinct, refuting the unconditional uniqueness invariant. -/
theorem claim_C9_counterexample :
    generateMachineConfig exEnvDup = .ok exOutDup ∧
    ¬ (exOutDup.machineDeployments.map (fun d => d.className)).Nodup ∧
    ¬ (exOutDup.machineClasses.map (fun c => lookupS c "name")).Nodup :=
  ⟨rfl, by decide, by decide⟩
